import Mathlib

/-!
Verification of the GameApi repository: a shallow embedding of the
database layer (src/db/database.js), the Express route handlers
(src/routes/games.js, src/routes/auth.js) and the realtime websocket
layer (src/websocket.js), together with proofs of the specified
properties.

JavaScript dynamic values appearing in request bodies are embedded as
`JsVal`; uuid generation is modelled by a fresh counter supplying
pairwise-distinct identifier strings; timestamps (`new Date()`) are
modelled by a `now : Nat` parameter.
-/

namespace GameApi

/-- A JavaScript value as it can appear in a parsed JSON request body. -/
inductive JsVal where
  | vstr : String → JsVal
  | vnum : Int → JsVal
  | vbool : Bool → JsVal
  | vnull : JsVal
  | vobj : List (String × JsVal) → JsVal
  | varr : List JsVal → JsVal
deriving Repr

/-- JavaScript truthiness (`!v` is `!truthy v`). -/
def JsVal.truthy : JsVal → Bool
  | .vstr s => s ≠ ""
  | .vnum n => n ≠ 0
  | .vbool b => b
  | .vnull => false
  | .vobj _ => true
  | .varr _ => true

/-- `typeof v === 'string'`. -/
def JsVal.isString : JsVal → Bool
  | .vstr _ => true
  | _ => false

/-- `typeof v === 'object'` (true for objects, arrays and `null`). -/
def JsVal.typeofObject : JsVal → Bool
  | .vobj _ => true
  | .varr _ => true
  | .vnull => true
  | _ => false

/-- The string payload of a `JsVal` known to be a string. -/
def JsVal.asStr : JsVal → String
  | .vstr s => s
  | _ => ""

/-- An absent body field is `undefined`, hence falsy. -/
def optTruthy : Option JsVal → Bool
  | none => false
  | some v => v.truthy

/-- The string payload of an optional body field. -/
def bodyStr : Option JsVal → String
  | some v => v.asStr
  | none => ""

/-- Characters removed by the JavaScript `String.prototype.trim`. -/
def isJsSpace (c : Char) : Bool :=
  c == ' ' || c == '\t' || c == '\n' || c == '\r'

/-- `String.prototype.trim`: strip leading and trailing whitespace. -/
def jsTrim (s : String) : String :=
  String.mk (((s.toList.dropWhile isJsSpace).reverse.dropWhile isJsSpace).reverse)

/-- The check `!x || typeof x !== 'string' || x.trim().length === 0`
    shared by the register, create-game and add-player handlers
    (`true` means the field is rejected with a 400). -/
def invalidTrimmedString (v : Option JsVal) : Bool :=
  match v with
  | none => true
  | some w => !w.truthy || !w.isString || jsTrim w.asStr == ""

/-- The check `!playerId || typeof playerId !== 'string'` of the
    move-posting handler. -/
def invalidPlayerIdField (v : Option JsVal) : Bool :=
  match v with
  | none => true
  | some w => !w.truthy || !w.isString

/-- The check `!data || typeof data !== 'object'` of the move-posting
    handler. -/
def invalidMoveData (v : Option JsVal) : Bool :=
  match v with
  | none => true
  | some w => !w.truthy || !w.typeofObject

/-- uuid generation, modelled as a fresh counter producing
    pairwise-distinct opaque strings. -/
def idOfNat (n : Nat) : String :=
  String.mk (List.replicate n 'a')

theorem idOfNat_injective : Function.Injective idOfNat := by
  intro m n h
  have h' := congrArg (fun s => s.data.length) h
  simpa [idOfNat] using h'

/-- A registered user record (`registerUser` in database.js). -/
structure User where
  id : String
  username : String
  apiKey : String
  createdAt : Nat
deriving Repr, DecidableEq

/-- A player embedded in a game (`addPlayerToGame`). -/
structure Player where
  id : String
  name : String
  joinedAt : Nat
deriving Repr, DecidableEq

/-- A move embedded in a game (`addMoveToGame`). -/
structure Move where
  id : String
  playerId : String
  data : JsVal
  timestamp : Nat
deriving Repr

/-- A game record (`createGame`). `name` and `status` are `JsVal`
    because the PUT handler copies arbitrary truthy body values into
    them. -/
structure Game where
  id : String
  name : JsVal
  ownerId : String
  players : List Player
  moves : List Move
  status : JsVal
  createdAt : Nat
  updatedAt : Nat
deriving Repr

/-! ### database.js: user operations -/

/-- `registerUser(username)`: fails on a duplicate username before any
    identifier is generated, otherwise appends a new user built from
    three fresh uuids (two concatenated for the api key, one for the
    id). Returns the new user, the new collection and the advanced
    counter. -/
def registerUser (users : List User) (username : String) (n now : Nat) :
    Except String (User × List User × Nat) :=
  if users.any (fun u => u.username == username) then
    .error "User already exists"
  else
    let apiKey := idOfNat n ++ idOfNat (n + 1)
    let newUser : User := ⟨idOfNat (n + 2), username, apiKey, now⟩
    .ok (newUser, users ++ [newUser], n + 3)

/-- `getUserByApiKey(apiKey)`. -/
def getUserByApiKey (users : List User) (apiKey : String) : Option User :=
  users.find? (fun u => u.apiKey == apiKey)

/-- `getUserById(userId)`. -/
def getUserById (users : List User) (userId : String) : Option User :=
  users.find? (fun u => u.id == userId)

/-! ### database.js: game operations -/

/-- `createGame(userId, gameName)`. -/
def createGame (games : List Game) (userId : String) (gameName : JsVal)
    (gid : String) (now : Nat) : Game × List Game :=
  let newGame : Game :=
    { id := gid, name := gameName, ownerId := userId, players := [],
      moves := [], status := .vstr "active", createdAt := now, updatedAt := now }
  (newGame, games ++ [newGame])

/-- `getGamesByUserId(userId)`. -/
def getGamesByUserId (games : List Game) (userId : String) : List Game :=
  games.filter (fun g => g.ownerId == userId)

/-- `getGameById(gameId)` (`Array.prototype.find`). -/
def getGameById (games : List Game) (gameId : String) : Option Game :=
  games.find? (fun g => g.id == gameId)

/-- In-place mutation of the first game matching `gameId`
    (the JS code mutates the record returned by `find`). -/
def modifyFirstGame (games : List Game) (gameId : String) (f : Game → Game) :
    List Game :=
  match games with
  | [] => []
  | g :: rest =>
    if g.id == gameId then f g :: rest
    else g :: modifyFirstGame rest gameId f

/-- The only updates the PUT route ever passes to `updateGame`. -/
structure GameUpdates where
  name : Option JsVal := none
  status : Option JsVal := none

/-- `Object.assign(game, updates, { updatedAt })`. -/
def applyUpdates (u : GameUpdates) (now : Nat) (g : Game) : Game :=
  { g with name := u.name.getD g.name, status := u.status.getD g.status,
           updatedAt := now }

/-- `updateGame(gameId, updates)`: `null` and no write when the game is
    absent, otherwise merge and rewrite. -/
def updateGame (games : List Game) (gameId : String) (u : GameUpdates)
    (now : Nat) : Option Game × List Game :=
  match getGameById games gameId with
  | none => (none, games)
  | some g =>
    (some (applyUpdates u now g), modifyFirstGame games gameId (applyUpdates u now))

/-- Removal of the first game matching `gameId` (`Array.prototype.splice`). -/
def removeFirstGame (games : List Game) (gameId : String) : List Game :=
  match games with
  | [] => []
  | g :: rest =>
    if g.id == gameId then rest else g :: removeFirstGame rest gameId

/-- `deleteGame(gameId)`. -/
def deleteGame (games : List Game) (gameId : String) : Bool × List Game :=
  if games.any (fun g => g.id == gameId) then
    (true, removeFirstGame games gameId)
  else (false, games)

/-! ### database.js: player operations -/

/-- `addPlayerToGame(gameId, playerName)`: `null` and no write when the
    game is absent, otherwise push a freshly-identified player and
    refresh `updatedAt`. -/
def addPlayerToGame (games : List Game) (gameId playerName pid : String)
    (now : Nat) : Option Player × List Game :=
  match getGameById games gameId with
  | none => (none, games)
  | some _ =>
    let newPlayer : Player := ⟨pid, playerName, now⟩
    (some newPlayer,
      modifyFirstGame games gameId
        (fun g => { g with players := g.players ++ [newPlayer], updatedAt := now }))

/-- Removal of the first player matching `pid` (`splice` at `findIndex`). -/
def removeFirstPlayer (players : List Player) (pid : String) : List Player :=
  match players with
  | [] => []
  | p :: rest =>
    if p.id == pid then rest else p :: removeFirstPlayer rest pid

/-- `removePlayerFromGame(gameId, playerId)`: `false` and no write when
    the game or the player is absent. -/
def removePlayerFromGame (games : List Game) (gameId pid : String) (now : Nat) :
    Bool × List Game :=
  match getGameById games gameId with
  | none => (false, games)
  | some g =>
    if g.players.any (fun p => p.id == pid) then
      (true,
        modifyFirstGame games gameId
          (fun h => { h with players := removeFirstPlayer h.players pid,
                             updatedAt := now }))
    else (false, games)

/-- `getGamePlayers(gameId)`. -/
def getGamePlayers (games : List Game) (gameId : String) : List Player :=
  match getGameById games gameId with
  | some g => g.players
  | none => []

/-! ### database.js: move operations -/

/-- `addMoveToGame(gameId, playerId, moveData)`. -/
def addMoveToGame (games : List Game) (gameId playerId : String)
    (moveData : JsVal) (mid : String) (now : Nat) : Option Move × List Game :=
  match getGameById games gameId with
  | none => (none, games)
  | some _ =>
    let newMove : Move := ⟨mid, playerId, moveData, now⟩
    (some newMove,
      modifyFirstGame games gameId
        (fun g => { g with moves := g.moves ++ [newMove], updatedAt := now }))

/-- `getGameMoves(gameId)`. -/
def getGameMoves (games : List Game) (gameId : String) : List Move :=
  match getGameById games gameId with
  | some g => g.moves
  | none => []

/-! ### websocket.js: registry, broadcast, handshake, close -/

/-- A registered realtime connection `{ ws, userId, username }`, the
    socket handle modelled by its numeric identity. -/
structure Conn where
  wsId : Nat
  userId : String
  username : String
deriving Repr, DecidableEq

/-- The `gameConnections` map, as an association list from game id to
    the list of registered connections. -/
abbrev Registry := List (String × List Conn)

/-- `gameConnections.get(gameId)` (`undefined` when absent). -/
def regGet (r : Registry) (gameId : String) : Option (List Conn) :=
  (r.find? (fun e => e.1 == gameId)).map (fun e => e.2)

/-- Registration: create the entry if missing, then push the connection. -/
def regAdd (r : Registry) (gameId : String) (c : Conn) : Registry :=
  match r with
  | [] => [(gameId, [c])]
  | (g, cs) :: rest =>
    if g == gameId then (g, cs ++ [c]) :: rest
    else (g, cs) :: regAdd rest gameId c

/-- Removal of the first connection with the given socket in the entry
    for `gameId` (`splice` at `findIndex(c => c.ws === ws)`). -/
def removeFirstConn (cs : List Conn) (wsId : Nat) : List Conn :=
  match cs with
  | [] => []
  | c :: rest =>
    if c.wsId == wsId then rest else c :: removeFirstConn rest wsId

/-- The close handler's registry update. -/
def regRemove (r : Registry) (gameId : String) (wsId : Nat) : Registry :=
  r.map (fun e => if e.1 == gameId then (e.1, removeFirstConn e.2 wsId) else e)

/-- The realtime events serialized to JSON frames. Each constructor
    carries exactly the payload fields the code puts in the frame. -/
inductive Event where
  | connected (gameId : String) (gameName : JsVal) (username : String)
  | playerJoined (gameId : String) (player : Player)
  | playerRemoved (gameId : String) (playerId : String)
  | move (gameId : String) (mv : Move) (playerName : String)
  | playerDisconnected (username : String)
deriving Repr

/-- A delivery of an event to a socket. -/
abbrev Send := Nat × Event

/-- `broadcastToGame(gameId, message)`: deliver to every connection in
    the game's entry whose socket has `readyState === 1` (modelled by
    the predicate `wsOpen`). -/
def broadcastToGame (r : Registry) (wsOpen : Nat → Bool) (gameId : String)
    (ev : Event) : List Send :=
  match regGet r gameId with
  | none => []
  | some cs =>
    cs.filterMap (fun c => if wsOpen c.wsId then some (c.wsId, ev) else none)

/-- The owner-or-player admission check of the websocket handshake:
    `isPlayer || isOwner` with
    `isPlayer = game.players.some(p => p.id === user.id)` and
    `isOwner = game.ownerId === user.id`. -/
def wsOwnerOrPlayer (game : Game) (userId : String) : Bool :=
  game.players.any (fun p => p.id == userId) || game.ownerId == userId

/-- Outcome of the `wss.on('connection')` handshake. -/
inductive HsResult where
  | closedWith (code : Nat) (reason : String)
  | accepted (username : String)
deriving Repr

/-- `url.searchParams.get(..)` yields `null` when absent, and `!p` is
    also true for the empty string. -/
def strFalsy : Option String → Bool
  | none => true
  | some s => s == ""

/-- The value of an optional query parameter. -/
def optStr (o : Option String) : String := o.getD ""

/-- The `wss.on('connection')` handshake: validate parameters, token,
    game and membership in order; on success register the connection and
    send the `connected` frame directly to the new socket. Returns the
    outcome, the updated registry and the frames sent. -/
def wsConnectHandler (users : List User) (games : List Game) (r : Registry)
    (wsId : Nat) (apiKey gameId : Option String) :
    HsResult × Registry × List Send :=
  if strFalsy apiKey || strFalsy gameId then
    (.closedWith 4000 "Missing apiKey or gameId parameter", r, [])
  else
    match getUserByApiKey users (optStr apiKey) with
    | none => (.closedWith 4001 "Invalid API key", r, [])
    | some user =>
      match getGameById games (optStr gameId) with
      | none => (.closedWith 4002 "Game not found", r, [])
      | some game =>
        if !(wsOwnerOrPlayer game user.id) then
          (.closedWith 4003 "Access denied: Not a player or owner of this game", r, [])
        else
          let c : Conn := ⟨wsId, user.id, user.username⟩
          (.accepted user.username, regAdd r (optStr gameId) c,
            [(wsId, .connected (optStr gameId) game.name user.username)])

/-- The `ws.on('close')` handler: remove the socket from its game's
    entry, then broadcast `player-disconnected` over the updated
    registry. `gameId` and `username` are the values captured by the
    closure at handshake time. -/
def wsCloseHandler (r : Registry) (wsOpen : Nat → Bool) (gameId : String)
    (wsId : Nat) (username : String) : Registry × List Send :=
  let r' := regRemove r gameId wsId
  (r', broadcastToGame r' wsOpen gameId (.playerDisconnected username))

/-! ### Route handlers (src/routes/auth.js, src/routes/games.js) -/

/-- The JSON body a handler sends, restricted to the fields the claims
    inspect. `status` is the HTTP status code. -/
structure ApiResponse where
  status : Nat
  error : Option String := none
  user : Option User := none
  game : Option Game := none
  player : Option Player := none
  mv : Option Move := none
  moves : Option (List Move) := none
deriving Repr

/-- `POST /auth/register`: validate the username field, then call
    `registerUser`, turning its failure into a 400 with the thrown
    message. -/
def postRegisterHandler (users : List User) (username : Option JsVal)
    (n now : Nat) : ApiResponse × List User × Nat :=
  if invalidTrimmedString username then
    ({ status := 400, error := some "Invalid username" }, users, n)
  else
    match registerUser users (jsTrim (bodyStr username)) n now with
    | .error msg => ({ status := 400, error := some msg }, users, n)
    | .ok (u, users', n') => ({ status := 201, user := some u }, users', n')

/-- `POST /games`: validate the name field, then create the game owned
    by the authenticated user. -/
def postGamesHandler (games : List Game) (userId : String)
    (name : Option JsVal) (n now : Nat) : ApiResponse × List Game × Nat :=
  if invalidTrimmedString name then
    ({ status := 400, error := some "Invalid game name" }, games, n)
  else
    let (g, games') := createGame games userId (.vstr (jsTrim (bodyStr name)))
      (idOfNat n) now
    ({ status := 201, game := some g }, games', n + 1)

/-- `GET /games/:gameId`: 404 when absent, 403 when not owner. -/
def getGameHandler (games : List Game) (userId gameId : String) : ApiResponse :=
  match getGameById games gameId with
  | none => { status := 404, error := some "Game not found" }
  | some game =>
    if game.ownerId ≠ userId then { status := 403, error := some "Access denied" }
    else { status := 200, game := some game }

/-- `PUT /games/:gameId`: owner only; copy the truthy `name` and
    `status` body fields into the update object and merge. -/
def putGameHandler (games : List Game) (userId gameId : String)
    (name status : Option JsVal) (now : Nat) : ApiResponse × List Game :=
  match getGameById games gameId with
  | none => ({ status := 404, error := some "Game not found" }, games)
  | some game =>
    if game.ownerId ≠ userId then
      ({ status := 403, error := some "Access denied" }, games)
    else
      let u : GameUpdates :=
        { name := if optTruthy name then name else none,
          status := if optTruthy status then status else none }
      let (g', games') := updateGame games gameId u now
      ({ status := 200, game := g' }, games')

/-- `DELETE /games/:gameId`: owner only. -/
def deleteGameHandler (games : List Game) (userId gameId : String) :
    ApiResponse × List Game :=
  match getGameById games gameId with
  | none => ({ status := 404, error := some "Game not found" }, games)
  | some game =>
    if game.ownerId ≠ userId then
      ({ status := 403, error := some "Access denied" }, games)
    else
      let (_, games') := deleteGame games gameId
      ({ status := 200 }, games')

/-- `POST /games/:gameId/players`: owner only; validate the name, add
    the player, then broadcast `player-joined` with the new player. -/
def postPlayerHandler (games : List Game) (r : Registry) (wsOpen : Nat → Bool)
    (userId gameId : String) (name : Option JsVal) (n now : Nat) :
    ApiResponse × List Game × Nat × List Send :=
  match getGameById games gameId with
  | none => ({ status := 404, error := some "Game not found" }, games, n, [])
  | some game =>
    if game.ownerId ≠ userId then
      ({ status := 403, error := some "Access denied" }, games, n, [])
    else if invalidTrimmedString name then
      ({ status := 400, error := some "Invalid player name" }, games, n, [])
    else
      match addPlayerToGame games gameId (jsTrim (bodyStr name)) (idOfNat n) now with
      | (some p, games') =>
        let sends := broadcastToGame r wsOpen gameId (.playerJoined gameId p)
        ({ status := 201, player := some p }, games', n + 1, sends)
      | (none, games') =>
        -- unreachable: the game was found in the same collection just above
        ({ status := 201 }, games', n + 1, [])

/-- `GET /games/:gameId/players`: owner only. -/
def getPlayersHandler (games : List Game) (userId gameId : String) : ApiResponse :=
  match getGameById games gameId with
  | none => { status := 404, error := some "Game not found" }
  | some game =>
    if game.ownerId ≠ userId then { status := 403, error := some "Access denied" }
    else { status := 200 }

/-- `DELETE /games/:gameId/players/:playerId`: owner only; 404 when the
    player is not in the game, otherwise remove and broadcast
    `player-removed`. -/
def deletePlayerHandler (games : List Game) (r : Registry) (wsOpen : Nat → Bool)
    (userId gameId pid : String) (now : Nat) :
    ApiResponse × List Game × List Send :=
  match getGameById games gameId with
  | none => ({ status := 404, error := some "Game not found" }, games, [])
  | some game =>
    if game.ownerId ≠ userId then
      ({ status := 403, error := some "Access denied" }, games, [])
    else
      match removePlayerFromGame games gameId pid now with
      | (false, games') =>
        ({ status := 404, error := some "Player not found" }, games', [])
      | (true, games') =>
        let sends := broadcastToGame r wsOpen gameId (.playerRemoved gameId pid)
        ({ status := 200 }, games', sends)

/-- The owner-or-player check of the two move routes:
    `currentUserIsPlayer || currentUserIsOwner` with
    `currentUserIsPlayer = game.players.some(p => p.id === req.user.id)`
    and `currentUserIsOwner = game.ownerId === req.user.id`. -/
def movesOwnerOrPlayer (game : Game) (userId : String) : Bool :=
  game.players.any (fun p => p.id == userId) || game.ownerId == userId

/-- `POST /games/:gameId/moves`: 404 when the game is absent, 403 when
    the requester is neither owner nor player, 400 on an invalid
    `playerId` or `data` field, 404 when the referenced player is not in
    the game, otherwise append the move and broadcast it. -/
def postMoveHandler (games : List Game) (r : Registry) (wsOpen : Nat → Bool)
    (userId gameId : String) (playerId data : Option JsVal) (n now : Nat) :
    ApiResponse × List Game × Nat × List Send :=
  match getGameById games gameId with
  | none => ({ status := 404, error := some "Game not found" }, games, n, [])
  | some game =>
    if !(movesOwnerOrPlayer game userId) then
      ({ status := 403,
         error := some "Access denied: Only players and the game owner can post moves" },
        games, n, [])
    else if invalidPlayerIdField playerId then
      ({ status := 400, error := some "Invalid playerId" }, games, n, [])
    else if invalidMoveData data then
      ({ status := 400, error := some "Invalid move data (must be JSON object)" },
        games, n, [])
    else
      match game.players.find? (fun p => p.id == bodyStr playerId) with
      | none =>
        ({ status := 404, error := some "Player not found in this game" }, games, n, [])
      | some player =>
        match addMoveToGame games gameId (bodyStr playerId)
            ((data).getD .vnull) (idOfNat n) now with
        | (some m, games') =>
          let sends := broadcastToGame r wsOpen gameId (.move gameId m player.name)
          ({ status := 201, mv := some m }, games', n + 1, sends)
        | (none, games') =>
          -- unreachable: the game was found in the same collection just above
          ({ status := 201 }, games', n + 1, [])

/-- `GET /games/:gameId/moves`: owner-or-player. -/
def getMovesHandler (games : List Game) (userId gameId : String) : ApiResponse :=
  match getGameById games gameId with
  | none => { status := 404, error := some "Game not found" }
  | some game =>
    if !(movesOwnerOrPlayer game userId) then
      { status := 403,
        error := some "Access denied: Only players and the game owner can view moves" }
    else { status := 200, moves := some (getGameMoves games gameId) }

/-- `GET /games/:gameId/moves/:moveId`: owner only, then find the move. -/
def getMoveHandler (games : List Game) (userId gameId moveId : String) :
    ApiResponse :=
  match getGameById games gameId with
  | none => { status := 404, error := some "Game not found" }
  | some game =>
    if game.ownerId ≠ userId then { status := 403, error := some "Access denied" }
    else
      match game.moves.find? (fun m => m.id == moveId) with
      | none => { status := 404, error := some "Move not found" }
      | some m => { status := 200, mv := some m }

/-! ### The public API as a state machine

The whole server state: the two persisted collections, the realtime
registry and the uuid counter. Reads do not change it, so the step
relation covers the mutating requests and the two realtime
transitions. -/

structure SState where
  users : List User
  games : List Game
  registry : Registry
  nextId : Nat
deriving Repr

/-- The empty stores the server starts from. -/
def initState : SState := ⟨[], [], [], 0⟩

/-- One inbound request or socket transition, with the data the outside
    world chooses: body fields, path parameters, the api key presented
    and the wall-clock time. -/
inductive Op where
  | opRegister (username : Option JsVal) (now : Nat)
  | opCreateGame (key : String) (name : Option JsVal) (now : Nat)
  | opUpdateGame (key gameId : String) (name statusField : Option JsVal) (now : Nat)
  | opDeleteGame (key gameId : String)
  | opAddPlayer (key gameId : String) (name : Option JsVal) (now : Nat)
  | opRemovePlayer (key gameId pid : String) (now : Nat)
  | opPostMove (key gameId : String) (playerId data : Option JsVal) (now : Nat)
  | opWsConnect (wsId : Nat) (apiKey gameId : Option String)
  | opWsClose (gameId : String) (wsId : Nat) (username : String)
deriving Repr

/-- The `apiKeyAuth` middleware: look the presented key up; on failure
    the protected handler is never reached (401). -/
def apiKeyAuth (users : List User) (key : String) : Option User :=
  getUserByApiKey users key

/-- Effect of one operation on the server state. Broadcast frames have
    no effect on the state, so the sockets' open-states are passed as a
    constant; a rejected request leaves the state unchanged. -/
def step (s : SState) : Op → SState
  | .opRegister uname now =>
    let (_, users', n') := postRegisterHandler s.users uname s.nextId now
    { s with users := users', nextId := n' }
  | .opCreateGame key name now =>
    match apiKeyAuth s.users key with
    | none => s
    | some u =>
      let (_, games', n') := postGamesHandler s.games u.id name s.nextId now
      { s with games := games', nextId := n' }
  | .opUpdateGame key gameId name statusField now =>
    match apiKeyAuth s.users key with
    | none => s
    | some u =>
      let (_, games') := putGameHandler s.games u.id gameId name statusField now
      { s with games := games' }
  | .opDeleteGame key gameId =>
    match apiKeyAuth s.users key with
    | none => s
    | some u =>
      let (_, games') := deleteGameHandler s.games u.id gameId
      { s with games := games' }
  | .opAddPlayer key gameId name now =>
    match apiKeyAuth s.users key with
    | none => s
    | some u =>
      let (_, games', n', _) :=
        postPlayerHandler s.games s.registry (fun _ => true) u.id gameId name
          s.nextId now
      { s with games := games', nextId := n' }
  | .opRemovePlayer key gameId pid now =>
    match apiKeyAuth s.users key with
    | none => s
    | some u =>
      let (_, games', _) :=
        deletePlayerHandler s.games s.registry (fun _ => true) u.id gameId pid now
      { s with games := games' }
  | .opPostMove key gameId playerId data now =>
    match apiKeyAuth s.users key with
    | none => s
    | some u =>
      let (_, games', n', _) :=
        postMoveHandler s.games s.registry (fun _ => true) u.id gameId playerId
          data s.nextId now
      { s with games := games', nextId := n' }
  | .opWsConnect wsId apiKey gameId =>
    let (_, r', _) := wsConnectHandler s.users s.games s.registry wsId apiKey gameId
    { s with registry := r' }
  | .opWsClose gameId wsId username =>
    let (r', _) := wsCloseHandler s.registry (fun _ => true) gameId wsId username
    { s with registry := r' }

/-- A run of the public API from the empty stores. -/
def runOps (ops : List Op) : SState :=
  ops.foldl step initState

/-! ### Basic lemmas about the embedded operations -/

theorem getGameById_modifyFirstGame (games : List Game) (gameId : String)
    (f : Game → Game) (hf : ∀ g, (f g).id = g.id) :
    getGameById (modifyFirstGame games gameId f) gameId =
      (getGameById games gameId).map f := by
  induction games with
  | nil => rfl
  | cons g rest ih =>
    by_cases h : (g.id == gameId) = true
    · have h' : ((f g).id == gameId) = true := by rw [hf]; exact h
      simp [getGameById, modifyFirstGame, h, h']
    · have h'' : (g.id == gameId) = false := Bool.eq_false_iff.mpr h
      simp only [getGameById, List.find?] at ih ⊢
      simp only [modifyFirstGame, h'', Bool.false_eq_true, if_false, List.find?, h'']
      exact ih

theorem addPlayerToGame_of_found {games : List Game} {gameId : String} {g : Game}
    (hg : getGameById games gameId = some g) (playerName pid : String) (now : Nat) :
    addPlayerToGame games gameId playerName pid now =
      (some ⟨pid, playerName, now⟩,
        modifyFirstGame games gameId
          (fun h => { h with players := h.players ++ [⟨pid, playerName, now⟩],
                             updatedAt := now })) := by
  simp [addPlayerToGame, hg]

theorem addMoveToGame_of_found {games : List Game} {gameId : String} {g : Game}
    (hg : getGameById games gameId = some g) (playerId : String) (d : JsVal)
    (mid : String) (now : Nat) :
    addMoveToGame games gameId playerId d mid now =
      (some ⟨mid, playerId, d, now⟩,
        modifyFirstGame games gameId
          (fun h => { h with moves := h.moves ++ [⟨mid, playerId, d, now⟩],
                             updatedAt := now })) := by
  simp [addMoveToGame, hg]

/-- A fixture game used by concrete witnesses: owner `"aa"`, one player
    `"p1"` named `bob`, no moves. -/
def demoGame : Game :=
  ⟨"g1", .vstr "G", "aa", [⟨"p1", "bob", 0⟩], [], .vstr "active", 0, 0⟩

/-! ### Claim C4 -/

/-- Claim C4: for every game, the owner-or-player predicate used by
    `POST /games/:gameId/moves` and by the websocket handshake admission
    accepts the game's owner identifier, even when the owner appears
    nowhere in the game's player list. -/
theorem claim_C4 (g : Game)
    (_howner_absent : ∀ p ∈ g.players, p.id ≠ g.ownerId) :
    movesOwnerOrPlayer g g.ownerId = true ∧ wsOwnerOrPlayer g g.ownerId = true := by
  simp [movesOwnerOrPlayer, wsOwnerOrPlayer]

theorem claim_C4_witness :
    (∀ p ∈ demoGame.players, p.id ≠ demoGame.ownerId) ∧
    movesOwnerOrPlayer demoGame demoGame.ownerId = true ∧
    wsOwnerOrPlayer demoGame demoGame.ownerId = true :=
  ⟨by decide, claim_C4 demoGame (by decide)⟩

/-! ### Claim C6 -/

/-- Claim C6: registering a username already present in the user
    collection fails with a 400 carrying an error message and leaves the
    user collection (and the uuid counter) unchanged. The hypothesis
    `jsTrim uname = uname` holds for every stored username, since
    registration only ever stores trimmed names. -/
theorem claim_C6 (users : List User) (u : User) (uname : String)
    (hu : u ∈ users) (hname : u.username = uname) (htrim : jsTrim uname = uname)
    (n now : Nat) :
    (postRegisterHandler users (some (.vstr uname)) n now).1.status = 400 ∧
    (postRegisterHandler users (some (.vstr uname)) n now).1.error.isSome = true ∧
    (postRegisterHandler users (some (.vstr uname)) n now).2.1 = users ∧
    (postRegisterHandler users (some (.vstr uname)) n now).2.2 = n := by
  have hany : users.any (fun v => v.username == uname) = true :=
    List.any_eq_true.2 ⟨u, hu, by simp [hname]⟩
  by_cases hinv : invalidTrimmedString (some (.vstr uname)) = true
  · simp [postRegisterHandler, hinv]
  · simp only [postRegisterHandler, hinv, Bool.false_eq_true, if_false,
      bodyStr, JsVal.asStr, htrim, registerUser, hany, if_true]
    simp

theorem claim_C6_witness :
    (⟨"aa", "alice", "a", 0⟩ : User) ∈ [(⟨"aa", "alice", "a", 0⟩ : User)] ∧
    (postRegisterHandler [(⟨"aa", "alice", "a", 0⟩ : User)]
        (some (.vstr "alice")) 5 9).1.status = 400 ∧
    (postRegisterHandler [(⟨"aa", "alice", "a", 0⟩ : User)]
        (some (.vstr "alice")) 5 9).2.1 = [(⟨"aa", "alice", "a", 0⟩ : User)] := by
  refine ⟨by decide, ?_, ?_⟩
  · exact (claim_C6 _ ⟨"aa", "alice", "a", 0⟩ "alice" (by decide) rfl (by decide) 5 9).1
  · exact (claim_C6 _ ⟨"aa", "alice", "a", 0⟩ "alice" (by decide) rfl (by decide) 5 9).2.2.1

/-! ### Claim C7 -/

/-- Claim C7: for an existing game, the move-list route succeeds exactly
    for owner-or-player requesters, while the single-move route demands
    ownership: a non-owner (in particular a mere player) receives 403,
    and the owner receives 200 whenever the move exists. -/
theorem claim_C7 (games : List Game) (g : Game) (userId gameId moveId : String)
    (hg : getGameById games gameId = some g) :
    ((getMovesHandler games userId gameId).status = 200 ↔
      movesOwnerOrPlayer g userId = true) ∧
    ((getMoveHandler games userId gameId moveId).status = 200 → g.ownerId = userId) ∧
    (g.ownerId ≠ userId → (getMoveHandler games userId gameId moveId).status = 403) ∧
    (g.ownerId = userId → ∀ m, g.moves.find? (fun mv => mv.id == moveId) = some m →
      (getMoveHandler games userId gameId moveId).status = 200 ∧
      (getMoveHandler games userId gameId moveId).mv = some m) := by
  refine ⟨?_, ?_, ?_, ?_⟩
  · by_cases hauth : movesOwnerOrPlayer g userId = true
    · simp [getMovesHandler, hg, hauth]
    · simp [getMovesHandler, hg, hauth]
  · intro h200
    by_cases hown : g.ownerId = userId
    · exact hown
    · exfalso
      rcases hfind : g.moves.find? (fun mv => mv.id == moveId) with _ | m <;>
        simp [getMoveHandler, hg, hown, hfind] at h200
  · intro hown
    simp [getMoveHandler, hg, hown]
  · intro hown m hm
    simp [getMoveHandler, hg, hown, hm]

theorem claim_C7_witness :
    getGameById [demoGame] "g1" = some demoGame ∧
    ((getMovesHandler [demoGame] "p1" "g1").status = 200 ↔
      movesOwnerOrPlayer demoGame "p1" = true) ∧
    ((getMoveHandler [demoGame] "p1" "g1" "m1").status = 403) := by
  refine ⟨rfl, ?_, ?_⟩
  · exact (claim_C7 [demoGame] demoGame "p1" "g1" "m1" rfl).1
  · exact (claim_C7 [demoGame] demoGame "p1" "g1" "m1" rfl).2.2.1 (by decide)

/-! ### Claim C3 -/

/-- Claim C3: the realtime handshake closes with 4000 when a required
    parameter is missing, with 4001 when the token matches no user, with
    4002 when the game does not exist, and with 4003 when the
    authenticated user is neither owner nor player; in each failure case
    the registry is unchanged (the connection is never added) and no
    frame is sent. -/
theorem claim_C3 (users : List User) (games : List Game) (r : Registry)
    (wsId : Nat) (apiKey gameId : Option String) :
    ((strFalsy apiKey || strFalsy gameId) = true →
      wsConnectHandler users games r wsId apiKey gameId =
        (.closedWith 4000 "Missing apiKey or gameId parameter", r, [])) ∧
    ((strFalsy apiKey || strFalsy gameId) = false →
      getUserByApiKey users (optStr apiKey) = none →
      wsConnectHandler users games r wsId apiKey gameId =
        (.closedWith 4001 "Invalid API key", r, [])) ∧
    (∀ user, (strFalsy apiKey || strFalsy gameId) = false →
      getUserByApiKey users (optStr apiKey) = some user →
      getGameById games (optStr gameId) = none →
      wsConnectHandler users games r wsId apiKey gameId =
        (.closedWith 4002 "Game not found", r, [])) ∧
    (∀ user game, (strFalsy apiKey || strFalsy gameId) = false →
      getUserByApiKey users (optStr apiKey) = some user →
      getGameById games (optStr gameId) = some game →
      wsOwnerOrPlayer game user.id = false →
      wsConnectHandler users games r wsId apiKey gameId =
        (.closedWith 4003 "Access denied: Not a player or owner of this game",
          r, [])) := by
  refine ⟨?_, ?_, ?_, ?_⟩
  · intro h
    simp [wsConnectHandler, h]
  · intro h hu
    simp [wsConnectHandler, h, hu]
  · intro user h hu hg
    simp [wsConnectHandler, h, hu, hg]
  · intro user game h hu hg hauth
    simp [wsConnectHandler, h, hu, hg, hauth]

/-- Fixture user for realtime witnesses. -/
def demoUser : User := ⟨"u9", "carol", "key9", 0⟩

theorem claim_C3_witness :
    (wsConnectHandler [demoUser] [demoGame] [] 7 none (some "g1") =
      (.closedWith 4000 "Missing apiKey or gameId parameter", [], [])) ∧
    (wsConnectHandler [demoUser] [demoGame] [] 7 (some "nope") (some "g1") =
      (.closedWith 4001 "Invalid API key", [], [])) ∧
    (wsConnectHandler [demoUser] [demoGame] [] 7 (some "key9") (some "gX") =
      (.closedWith 4002 "Game not found", [], [])) ∧
    (wsConnectHandler [demoUser] [demoGame] [] 7 (some "key9") (some "g1") =
      (.closedWith 4003 "Access denied: Not a player or owner of this game",
        [], [])) := by
  refine ⟨?_, ?_, ?_, ?_⟩
  · exact (claim_C3 [demoUser] [demoGame] [] 7 none (some "g1")).1 rfl
  · exact (claim_C3 [demoUser] [demoGame] [] 7 (some "nope") (some "g1")).2.1 rfl rfl
  · exact (claim_C3 [demoUser] [demoGame] [] 7 (some "key9") (some "gX")).2.2.1
      demoUser rfl rfl rfl
  · exact (claim_C3 [demoUser] [demoGame] [] 7 (some "key9") (some "g1")).2.2.2
      demoUser demoGame rfl rfl rfl rfl

/-! ### Claim C8 -/

/-- Claim C8: the move-posting route returns 404 when the game is
    absent; else 403 when the requester is neither owner nor player;
    else 400 when the `playerId` or `data` field is invalid; else 404
    when the referenced player is not in the game; and otherwise 201
    with the created move, followed by a broadcast of exactly that move
    to the game's open connections. -/
theorem claim_C8 (games : List Game) (r : Registry) (wsOpen : Nat → Bool)
    (userId gameId : String) (playerId data : Option JsVal) (n now : Nat) :
    (getGameById games gameId = none →
      (postMoveHandler games r wsOpen userId gameId playerId data n now).1.status
        = 404) ∧
    (∀ g, getGameById games gameId = some g →
      (movesOwnerOrPlayer g userId = false →
        (postMoveHandler games r wsOpen userId gameId playerId data n now).1.status
          = 403) ∧
      (movesOwnerOrPlayer g userId = true →
        ((invalidPlayerIdField playerId || invalidMoveData data) = true →
          (postMoveHandler games r wsOpen userId gameId playerId data n now).1.status
            = 400) ∧
        (invalidPlayerIdField playerId = false → invalidMoveData data = false →
          (g.players.find? (fun p => p.id == bodyStr playerId) = none →
            (postMoveHandler games r wsOpen userId gameId playerId data n now).1.status
              = 404) ∧
          (∀ p, g.players.find? (fun p => p.id == bodyStr playerId) = some p →
            (postMoveHandler games r wsOpen userId gameId playerId data n now).1.status
              = 201 ∧
            (postMoveHandler games r wsOpen userId gameId playerId data n now).1.mv
              = some ⟨idOfNat n, bodyStr playerId, data.getD .vnull, now⟩ ∧
            (postMoveHandler games r wsOpen userId gameId playerId data n now).2.2.2
              = broadcastToGame r wsOpen gameId
                  (.move gameId ⟨idOfNat n, bodyStr playerId, data.getD .vnull, now⟩
                    p.name))))) := by
  constructor
  · intro hg
    simp [postMoveHandler, hg]
  · intro g hg
    constructor
    · intro hauth
      simp [postMoveHandler, hg, hauth]
    · intro hauth
      constructor
      · intro hbad
        rcases Bool.or_eq_true_iff.mp hbad with hb | hb
        · simp [postMoveHandler, hg, hauth, hb]
        · by_cases hpid : invalidPlayerIdField playerId = true
          · simp [postMoveHandler, hg, hauth, hpid]
          · simp [postMoveHandler, hg, hauth, hpid, hb]
      · intro hpid hdata
        constructor
        · intro hfind
          simp [postMoveHandler, hg, hauth, hpid, hdata, hfind]
        · intro p hfind
          simp [postMoveHandler, hg, hauth, hpid, hdata, hfind,
            addMoveToGame_of_found hg]

theorem claim_C8_witness :
    ((postMoveHandler [demoGame] [] (fun _ => true) "aa" "g1"
        (some (.vstr "p1")) (some (.vobj [])) 7 3).1.status = 201) ∧
    ((postMoveHandler [demoGame] [] (fun _ => true) "aa" "g1"
        (some (.vstr "p1")) (some (.vobj [])) 7 3).1.mv =
      some ⟨idOfNat 7, "p1", .vobj [], 3⟩) ∧
    ((postMoveHandler [demoGame] [] (fun _ => true) "p1" "gX"
        (some (.vstr "p1")) (some (.vobj [])) 7 3).1.status = 404) := by
  refine ⟨?_, ?_, ?_⟩
  · exact (((claim_C8 [demoGame] [] (fun _ => true) "aa" "g1"
      (some (.vstr "p1")) (some (.vobj [])) 7 3).2 demoGame rfl).2 rfl).2 rfl rfl
      |>.2 ⟨"p1", "bob", 0⟩ rfl |>.1
  · exact (((claim_C8 [demoGame] [] (fun _ => true) "aa" "g1"
      (some (.vstr "p1")) (some (.vobj [])) 7 3).2 demoGame rfl).2 rfl).2 rfl rfl
      |>.2 ⟨"p1", "bob", 0⟩ rfl |>.2.1
  · exact (claim_C8 [demoGame] [] (fun _ => true) "p1" "gX"
      (some (.vstr "p1")) (some (.vobj [])) 7 3).1 rfl

/-! ### Claim C9 -/

theorem modifyFirstGame_decomp {games : List Game} {gameId : String} {g : Game}
    (hg : getGameById games gameId = some g) (f : Game → Game) :
    ∃ pre post, games = pre ++ g :: post ∧
      modifyFirstGame games gameId f = pre ++ f g :: post := by
  induction games with
  | nil => simp [getGameById] at hg
  | cons a rest ih =>
    by_cases h : (a.id == gameId) = true
    · have ha : a = g := by
        simp [getGameById, List.find?, h] at hg
        exact hg
      subst ha
      exact ⟨[], rest, rfl, by simp [modifyFirstGame, h]⟩
    · have h' : (a.id == gameId) = false := Bool.eq_false_iff.mpr h
      have hg' : getGameById rest gameId = some g := by
        simpa [getGameById, List.find?, h'] using hg
      obtain ⟨pre, post, hsplit, hmod⟩ := ih hg'
      refine ⟨a :: pre, post, by simp [hsplit], ?_⟩
      simp [modifyFirstGame, h', hmod]

/-- Claim C9: a successful owner update of a game changes only that
    game's `name`, `status` and `updatedAt`: its identifier, owner,
    players, moves and creation timestamp are preserved, and every other
    game in the collection is untouched (the owner is immutable after
    creation). -/
theorem claim_C9 (games : List Game) (g : Game) (userId gameId : String)
    (name statusField : Option JsVal) (now : Nat)
    (hg : getGameById games gameId = some g) (hown : g.ownerId = userId) :
    (putGameHandler games userId gameId name statusField now).1.status = 200 ∧
    ∃ pre post g', games = pre ++ g :: post ∧
      (putGameHandler games userId gameId name statusField now).2 =
        pre ++ g' :: post ∧
      g'.id = g.id ∧ g'.ownerId = g.ownerId ∧ g'.players = g.players ∧
      g'.moves = g.moves ∧ g'.createdAt = g.createdAt := by
  have hmain :
      putGameHandler games userId gameId name statusField now =
        ({ status := 200,
           game := some (applyUpdates
             { name := if optTruthy name then name else none,
               status := if optTruthy statusField then statusField else none }
             now g) },
          modifyFirstGame games gameId
            (applyUpdates
              { name := if optTruthy name then name else none,
                status := if optTruthy statusField then statusField else none }
              now)) := by
    simp [putGameHandler, hg, hown, updateGame]
  obtain ⟨pre, post, hsplit, hmod⟩ :=
    modifyFirstGame_decomp hg
      (applyUpdates
        { name := if optTruthy name then name else none,
          status := if optTruthy statusField then statusField else none } now)
  refine ⟨by rw [hmain], pre, post,
    applyUpdates
      { name := if optTruthy name then name else none,
        status := if optTruthy statusField then statusField else none } now g,
    hsplit, by rw [hmain]; exact hmod, rfl, rfl, rfl, rfl, rfl⟩

theorem claim_C9_witness :
    getGameById [demoGame] "g1" = some demoGame ∧
    (putGameHandler [demoGame] "aa" "g1" (some (.vstr "G2")) none 5).1.status
      = 200 ∧
    ∃ pre post g', [demoGame] = pre ++ demoGame :: post ∧
      (putGameHandler [demoGame] "aa" "g1" (some (.vstr "G2")) none 5).2 =
        pre ++ g' :: post ∧
      g'.id = demoGame.id ∧ g'.ownerId = demoGame.ownerId ∧
      g'.players = demoGame.players ∧ g'.moves = demoGame.moves ∧
      g'.createdAt = demoGame.createdAt := by
  refine ⟨rfl, ?_, ?_⟩
  · exact (claim_C9 [demoGame] demoGame "aa" "g1" (some (.vstr "G2")) none 5
      rfl rfl).1
  · exact (claim_C9 [demoGame] demoGame "aa" "g1" (some (.vstr "G2")) none 5
      rfl rfl).2

/-! ### Registry lemmas for the broadcast claims -/

/-- The connections currently registered for a game (empty when the
    registry has no entry). -/
def connsOf (r : Registry) (gameId : String) : List Conn :=
  (regGet r gameId).getD []

/-- All socket identities present anywhere in the registry. -/
def allWsIds (r : Registry) : List Nat :=
  r.flatMap (fun e => e.2.map Conn.wsId)

/-- The frames a broadcast produces: one per registered connection whose
    socket is open. -/
def deliveries (wsOpen : Nat → Bool) (ev : Event) (cs : List Conn) : List Send :=
  cs.filterMap (fun c => if wsOpen c.wsId then some (c.wsId, ev) else none)

/-- How many frames of a send list target the socket `w`. -/
def sendCount (sends : List Send) (w : Nat) : Nat :=
  (sends.map Prod.fst).count w

theorem broadcastToGame_eq_deliveries (r : Registry) (wsOpen : Nat → Bool)
    (gameId : String) (ev : Event) :
    broadcastToGame r wsOpen gameId ev = deliveries wsOpen ev (connsOf r gameId) := by
  unfold broadcastToGame connsOf deliveries
  cases regGet r gameId <;> simp

theorem deliveries_mem {wsOpen : Nat → Bool} {ev : Event} {cs : List Conn}
    {p : Send} (hp : p ∈ deliveries wsOpen ev cs) :
    p.2 = ev ∧ p.1 ∈ cs.map Conn.wsId := by
  rcases List.mem_filterMap.mp hp with ⟨c, hc, hcp⟩
  by_cases h : wsOpen c.wsId = true
  · simp only [h, if_true, Option.some_inj] at hcp
    subst hcp
    exact ⟨rfl, List.mem_map_of_mem _ hc⟩
  · simp [h] at hcp

theorem deliveries_count_not_mem {wsOpen : Nat → Bool} {ev : Event}
    {cs : List Conn} {w : Nat} (h : w ∉ cs.map Conn.wsId) :
    sendCount (deliveries wsOpen ev cs) w = 0 := by
  induction cs with
  | nil => rfl
  | cons c rest ih =>
    have hne : w ≠ c.wsId := by
      intro he
      exact h (by simp [he])
    have hrest : w ∉ rest.map Conn.wsId := by
      intro hm
      exact h (by simp [hm])
    by_cases ho : wsOpen c.wsId = true
    · simp only [deliveries, List.filterMap_cons, ho, if_true] at *
      simpa [sendCount, List.count_cons, hne] using ih hrest
    · simp only [deliveries, List.filterMap_cons, ho] at *
      simpa [sendCount] using ih hrest

theorem deliveries_count_open {wsOpen : Nat → Bool} {ev : Event}
    {cs : List Conn} {c : Conn} (hnd : (cs.map Conn.wsId).Nodup) (hc : c ∈ cs)
    (ho : wsOpen c.wsId = true) :
    sendCount (deliveries wsOpen ev cs) c.wsId = 1 := by
  induction cs with
  | nil => cases hc
  | cons a rest ih =>
    have hnd' : (rest.map Conn.wsId).Nodup := (List.nodup_cons.mp (by simpa using hnd)).2
    have hha : a.wsId ∉ rest.map Conn.wsId := (List.nodup_cons.mp (by simpa using hnd)).1
    rcases List.mem_cons.mp hc with rfl | hc'
    · have h0 : sendCount (deliveries wsOpen ev rest) c.wsId = 0 :=
        deliveries_count_not_mem hha
      simp only [deliveries, List.filterMap_cons, ho, if_true, sendCount,
        List.map_cons, List.count_cons, beq_self_eq_true, if_true] at h0 ⊢
      omega
    · have hcw : c.wsId ∈ rest.map Conn.wsId := List.mem_map_of_mem _ hc'
      have hne : c.wsId ≠ a.wsId := by
        intro he
        exact hha (he ▸ hcw)
      have h1 := ih hnd' hc'
      by_cases hoa : wsOpen a.wsId = true
      · simp only [deliveries, List.filterMap_cons, hoa, if_true] at *
        simpa [sendCount, List.count_cons, hne] using h1
      · simp only [deliveries, List.filterMap_cons, hoa] at *
        simpa [sendCount] using h1

theorem connsOf_ids_sublist (r : Registry) (gameId : String) :
    ((connsOf r gameId).map Conn.wsId).Sublist (allWsIds r) := by
  induction r with
  | nil => simp [connsOf, regGet, allWsIds]
  | cons e rest ih =>
    by_cases h : (e.1 == gameId) = true
    · simp only [connsOf, regGet, List.find?, h, Option.map_some, Option.getD,
        allWsIds, List.flatMap_cons]
      exact List.sublist_append_left _ _
    · have h' : (e.1 == gameId) = false := Bool.eq_false_iff.mpr h
      simp only [connsOf, regGet, List.find?, h', allWsIds, List.flatMap_cons] at ih ⊢
      exact ih.trans (List.sublist_append_right _ _)

theorem mem_allWsIds_of_entry {r : Registry} {e : String × List Conn}
    (he : e ∈ r) {c : Conn} (hc : c ∈ e.2) : c.wsId ∈ allWsIds r := by
  simp only [allWsIds, List.mem_flatMap]
  exact ⟨e, he, List.mem_map_of_mem _ hc⟩

theorem other_entry_not_in_connsOf {r : Registry} (hnd : (allWsIds r).Nodup)
    {gameId : String} {e : String × List Conn} (he : e ∈ r) (hne : e.1 ≠ gameId)
    {c : Conn} (hc : c ∈ e.2) :
    c.wsId ∉ (connsOf r gameId).map Conn.wsId := by
  induction r with
  | nil => cases he
  | cons e₀ rest ih =>
    have hdecomp : (e₀.2.map Conn.wsId ++ allWsIds rest).Nodup := by
      simpa [allWsIds, List.flatMap_cons] using hnd
    obtain ⟨hnd₀, hndrest, hdisj⟩ := List.nodup_append.mp hdecomp
    rcases List.mem_cons.mp he with rfl | he'
    · have hkey : (e.1 == gameId) = false := by
        simp [hne]
      simp only [connsOf, regGet, List.find?, hkey]
      intro hmem
      have hmem' : c.wsId ∈ allWsIds rest :=
        (connsOf_ids_sublist rest gameId).subset
          (by simpa [connsOf] using hmem)
      exact hdisj (List.mem_map_of_mem _ hc) hmem'
    · by_cases hkey : (e₀.1 == gameId) = true
      · simp only [connsOf, regGet, List.find?, hkey, Option.map_some, Option.getD]
        intro hmem
        exact hdisj hmem (mem_allWsIds_of_entry he' hc)
      · have hkey' : (e₀.1 == gameId) = false := Bool.eq_false_iff.mpr hkey
        simp only [connsOf, regGet, List.find?, hkey']
        have hndrest' : (allWsIds rest).Nodup := hndrest
        exact ih hndrest' he'

theorem connsOf_regRemove (r : Registry) (gameId : String) (wsId : Nat) :
    connsOf (regRemove r gameId wsId) gameId =
      removeFirstConn (connsOf r gameId) wsId := by
  induction r with
  | nil => rfl
  | cons e rest ih =>
    by_cases h : (e.1 == gameId) = true
    · simp [connsOf, regGet, regRemove, List.find?, h]
    · have h' : (e.1 == gameId) = false := Bool.eq_false_iff.mpr h
      simp only [connsOf, regGet, regRemove, List.find?] at ih ⊢
      simp only [h', Bool.false_eq_true, if_false]
      simpa [List.find?, h'] using ih

theorem removeFirstConn_sublist (cs : List Conn) (wsId : Nat) :
    (removeFirstConn cs wsId).Sublist cs := by
  induction cs with
  | nil => simp [removeFirstConn]
  | cons c rest ih =>
    by_cases h : (c.wsId == wsId) = true
    · simp only [removeFirstConn, h, if_true]
      exact List.sublist_cons_self _ _
    · have h' : (c.wsId == wsId) = false := Bool.eq_false_iff.mpr h
      simp only [removeFirstConn, h', Bool.false_eq_true, if_false]
      exact ih.cons₂ _

theorem removeFirstConn_not_mem {cs : List Conn} {wsId : Nat}
    (hnd : (cs.map Conn.wsId).Nodup) :
    wsId ∉ (removeFirstConn cs wsId).map Conn.wsId := by
  induction cs with
  | nil => simp [removeFirstConn]
  | cons c rest ih =>
    have hnd' : (rest.map Conn.wsId).Nodup := (List.nodup_cons.mp (by simpa using hnd)).2
    have hhc : c.wsId ∉ rest.map Conn.wsId := (List.nodup_cons.mp (by simpa using hnd)).1
    by_cases h : (c.wsId == wsId) = true
    · have heq : c.wsId = wsId := by simpa using h
      simp only [removeFirstConn, h, if_true]
      exact heq ▸ hhc
    · have h' : (c.wsId == wsId) = false := Bool.eq_false_iff.mpr h
      have hne : wsId ≠ c.wsId := by
        intro he
        exact h (by simp [he])
      simp only [removeFirstConn, h', Bool.false_eq_true, if_false, List.map_cons,
        List.mem_cons]
      rintro (he | hm)
      · exact hne he
      · exact ih hnd' hm

/-! ### Claim C1 -/

/-- Claim C1: a successful `POST /games/:gameId/players` broadcasts
    exactly one `player-joined` frame, carrying the new player's
    identifier, name and join timestamp, to each connection currently
    registered and open for that game, and nothing to connections
    registered for other games. -/
theorem claim_C1 (games : List Game) (g : Game) (r : Registry)
    (wsOpen : Nat → Bool) (userId gameId : String) (name : Option JsVal)
    (n now : Nat)
    (hg : getGameById games gameId = some g) (hown : g.ownerId = userId)
    (hname : invalidTrimmedString name = false)
    (hnd : (allWsIds r).Nodup) :
    (postPlayerHandler games r wsOpen userId gameId name n now).1.status = 201 ∧
    (postPlayerHandler games r wsOpen userId gameId name n now).1.player =
      some ⟨idOfNat n, jsTrim (bodyStr name), now⟩ ∧
    (∀ c ∈ connsOf r gameId, wsOpen c.wsId = true →
      sendCount ((postPlayerHandler games r wsOpen userId gameId name n now).2.2.2)
        c.wsId = 1) ∧
    (∀ p ∈ (postPlayerHandler games r wsOpen userId gameId name n now).2.2.2,
      p.2 = Event.playerJoined gameId ⟨idOfNat n, jsTrim (bodyStr name), now⟩) ∧
    (∀ e ∈ r, e.1 ≠ gameId → ∀ c ∈ e.2,
      sendCount ((postPlayerHandler games r wsOpen userId gameId name n now).2.2.2)
        c.wsId = 0) := by
  have hred :
      postPlayerHandler games r wsOpen userId gameId name n now =
        ({ status := 201, player := some ⟨idOfNat n, jsTrim (bodyStr name), now⟩ },
          modifyFirstGame games gameId
            (fun h => { h with
              players := h.players ++ [⟨idOfNat n, jsTrim (bodyStr name), now⟩],
              updatedAt := now }),
          n + 1,
          broadcastToGame r wsOpen gameId
            (.playerJoined gameId ⟨idOfNat n, jsTrim (bodyStr name), now⟩)) := by
    simp [postPlayerHandler, hg, hown, hname, addPlayerToGame_of_found hg]
  rw [hred]
  have hndc : ((connsOf r gameId).map Conn.wsId).Nodup :=
    List.Nodup.sublist (connsOf_ids_sublist r gameId) hnd
  refine ⟨rfl, rfl, ?_, ?_, ?_⟩
  · intro c hc ho
    rw [broadcastToGame_eq_deliveries]
    exact deliveries_count_open hndc hc ho
  · intro p hp
    rw [broadcastToGame_eq_deliveries] at hp
    exact (deliveries_mem hp).1
  · intro e he hne c hc
    rw [broadcastToGame_eq_deliveries]
    exact deliveries_count_not_mem (other_entry_not_in_connsOf hnd he hne hc)

/-- Fixture registry: two sockets in game `g1`, one in game `g2`. -/
def demoRegistry : Registry :=
  [("g1", [⟨1, "aa", "alice"⟩, ⟨2, "u9", "carol"⟩]), ("g2", [⟨3, "zz", "joe"⟩])]

theorem claim_C1_witness :
    (postPlayerHandler [demoGame] demoRegistry (fun _ => true) "aa" "g1"
        (some (.vstr "dave")) 4 9).1.status = 201 ∧
    sendCount ((postPlayerHandler [demoGame] demoRegistry (fun _ => true) "aa" "g1"
        (some (.vstr "dave")) 4 9).2.2.2) 1 = 1 ∧
    sendCount ((postPlayerHandler [demoGame] demoRegistry (fun _ => true) "aa" "g1"
        (some (.vstr "dave")) 4 9).2.2.2) 3 = 0 := by
  refine ⟨?_, ?_, ?_⟩
  · exact (claim_C1 [demoGame] demoGame demoRegistry (fun _ => true) "aa" "g1"
      (some (.vstr "dave")) 4 9 rfl rfl (by decide) (by decide)).1
  · exact (claim_C1 [demoGame] demoGame demoRegistry (fun _ => true) "aa" "g1"
      (some (.vstr "dave")) 4 9 rfl rfl (by decide) (by decide)).2.2.1
      ⟨1, "aa", "alice"⟩ (by decide) rfl
  · exact (claim_C1 [demoGame] demoGame demoRegistry (fun _ => true) "aa" "g1"
      (some (.vstr "dave")) 4 9 rfl rfl (by decide) (by decide)).2.2.2.2
      ("g2", [⟨3, "zz", "joe"⟩]) (by decide) (by decide) ⟨3, "zz", "joe"⟩
      (by decide)

/-! ### Claim C2 -/

/-- Claim C2: when a registered socket closes, it is removed from its
    game's registry entry, so no broadcast to that game over the
    resulting registry targets it any more; the close handler then sends
    exactly one `player-disconnected` frame to each remaining open
    connection of that game, and every frame it sends goes to a
    remaining connection of that game. -/
theorem claim_C2 (r : Registry) (wsOpen : Nat → Bool)
    (gameId username : String) (wsId : Nat)
    (hnd : (allWsIds r).Nodup) :
    wsId ∉ (connsOf ((wsCloseHandler r wsOpen gameId wsId username).1) gameId).map
      Conn.wsId ∧
    (∀ (wsOpen' : Nat → Bool) (ev : Event),
      sendCount (broadcastToGame ((wsCloseHandler r wsOpen gameId wsId username).1)
        wsOpen' gameId ev) wsId = 0) ∧
    (∀ c ∈ connsOf ((wsCloseHandler r wsOpen gameId wsId username).1) gameId,
      wsOpen c.wsId = true →
      sendCount ((wsCloseHandler r wsOpen gameId wsId username).2) c.wsId = 1) ∧
    (∀ p ∈ (wsCloseHandler r wsOpen gameId wsId username).2,
      p.2 = Event.playerDisconnected username ∧
      p.1 ∈ (connsOf ((wsCloseHandler r wsOpen gameId wsId username).1) gameId).map
        Conn.wsId) := by
  have hr1 : (wsCloseHandler r wsOpen gameId wsId username).1 =
      regRemove r gameId wsId := rfl
  have hr2 : (wsCloseHandler r wsOpen gameId wsId username).2 =
      broadcastToGame (regRemove r gameId wsId) wsOpen gameId
        (.playerDisconnected username) := rfl
  rw [hr1, hr2, broadcastToGame_eq_deliveries, connsOf_regRemove]
  have hndc : ((connsOf r gameId).map Conn.wsId).Nodup :=
    List.Nodup.sublist (connsOf_ids_sublist r gameId) hnd
  have hnot : wsId ∉ (removeFirstConn (connsOf r gameId) wsId).map Conn.wsId :=
    removeFirstConn_not_mem hndc
  have hndrem : ((removeFirstConn (connsOf r gameId) wsId).map Conn.wsId).Nodup :=
    List.Nodup.sublist (List.Sublist.map Conn.wsId
      (removeFirstConn_sublist (connsOf r gameId) wsId)) hndc
  refine ⟨hnot, ?_, ?_, ?_⟩
  · intro wsOpen' ev
    rw [broadcastToGame_eq_deliveries, connsOf_regRemove]
    exact deliveries_count_not_mem hnot
  · intro c hc ho
    exact deliveries_count_open hndrem hc ho
  · intro p hp
    exact ⟨(deliveries_mem hp).1, (deliveries_mem hp).2⟩

theorem claim_C2_witness :
    (1 ∉ (connsOf ((wsCloseHandler demoRegistry (fun _ => true) "g1" 1 "alice").1)
      "g1").map Conn.wsId) ∧
    sendCount ((wsCloseHandler demoRegistry (fun _ => true) "g1" 1 "alice").2) 2
      = 1 ∧
    sendCount (broadcastToGame
      ((wsCloseHandler demoRegistry (fun _ => true) "g1" 1 "alice").1)
      (fun _ => true) "g1" (.playerDisconnected "alice")) 1 = 0 := by
  refine ⟨?_, ?_, ?_⟩
  · exact (claim_C2 demoRegistry (fun _ => true) "g1" "alice" 1 (by decide)).1
  · exact (claim_C2 demoRegistry (fun _ => true) "g1" "alice" 1
      (by decide)).2.2.1 ⟨2, "u9", "carol"⟩ (by decide) rfl
  · exact (claim_C2 demoRegistry (fun _ => true) "g1" "alice" 1
      (by decide)).2.1 (fun _ => true) (.playerDisconnected "alice")

/-! ### Claim C5 -/

/-- Sequential submission of move requests (pairs of `playerId` and
    `data` body fields) through the POST moves handler, threading the
    game collection and the uuid counter; returns the final collection,
    the final counter and the list of responses in order. -/
def postMovesSeq (games : List Game) (r : Registry) (wsOpen : Nat → Bool)
    (userId gameId : String) (reqs : List (Option JsVal × Option JsVal))
    (n now : Nat) : List Game × Nat × List ApiResponse :=
  match reqs with
  | [] => (games, n, [])
  | (pid, d) :: rest =>
    let out := postMoveHandler games r wsOpen userId gameId pid d n now
    let next := postMovesSeq out.2.1 r wsOpen userId gameId rest out.2.2.1 now
    (next.1, next.2.1, out.1 :: next.2.2)

/-- The moves a fully successful submission sequence appends: the k-th
    carries the k-th request's player and data, with the k-th fresh id. -/
def expectedMoves (reqs : List (Option JsVal × Option JsVal)) (n now : Nat) :
    List Move :=
  match reqs with
  | [] => []
  | (pid, d) :: rest =>
    ⟨idOfNat n, bodyStr pid, d.getD .vnull, now⟩ :: expectedMoves rest (n + 1) now

theorem postMoveHandler_success {games : List Game} {r : Registry}
    {wsOpen : Nat → Bool} {userId gameId : String} {pid d : Option JsVal}
    {n now : Nat}
    (h201 : (postMoveHandler games r wsOpen userId gameId pid d n now).1.status
      = 201) :
    ∃ g, getGameById games gameId = some g ∧
      (postMoveHandler games r wsOpen userId gameId pid d n now).2.1 =
        modifyFirstGame games gameId
          (fun h => { h with
            moves := h.moves ++ [⟨idOfNat n, bodyStr pid, d.getD .vnull, now⟩],
            updatedAt := now }) ∧
      (postMoveHandler games r wsOpen userId gameId pid d n now).2.2.1 = n + 1 := by
  rcases hg : getGameById games gameId with _ | g
  · simp [postMoveHandler, hg] at h201
  · refine ⟨g, rfl, ?_⟩
    by_cases hauth : movesOwnerOrPlayer g userId = true
    · by_cases hpid : invalidPlayerIdField pid = true
      · simp [postMoveHandler, hg, hauth, hpid] at h201
      · by_cases hd : invalidMoveData d = true
        · simp [postMoveHandler, hg, hauth, hpid, hd] at h201
        · rcases hfind : g.players.find? (fun p => p.id == bodyStr pid) with _ | p
          · simp [postMoveHandler, hg, hauth, hpid, hd, hfind] at h201
          · constructor <;>
              simp [postMoveHandler, hg, hauth, hpid, hd, hfind,
                addMoveToGame_of_found hg]
    · simp [postMoveHandler, hg, hauth] at h201

theorem postMovesSeq_spec {r : Registry} {wsOpen : Nat → Bool}
    {userId gameId : String} {now : Nat} :
    ∀ (reqs : List (Option JsVal × Option JsVal)) (games : List Game) (g : Game)
      (n : Nat),
    getGameById games gameId = some g →
    (∀ resp ∈ (postMovesSeq games r wsOpen userId gameId reqs n now).2.2,
      resp.status = 201) →
    ∃ g', getGameById ((postMovesSeq games r wsOpen userId gameId reqs n now).1)
        gameId = some g' ∧
      g'.moves = g.moves ++ expectedMoves reqs n now ∧
      (postMovesSeq games r wsOpen userId gameId reqs n now).2.1 =
        n + reqs.length := by
  intro reqs
  induction reqs with
  | nil =>
    intro games g n hg _
    exact ⟨g, hg, by simp [expectedMoves, postMovesSeq], by simp [postMovesSeq]⟩
  | cons q rest ih =>
    intro games g n hg hall
    obtain ⟨pid, d⟩ := q
    have hhead :
        (postMoveHandler games r wsOpen userId gameId pid d n now).1.status
          = 201 := by
      apply hall
      simp [postMovesSeq]
    obtain ⟨g₀, hg₀, hgames₁, hn₁⟩ := postMoveHandler_success hhead
    have hgg : g₀ = g := by
      rw [hg] at hg₀
      exact (Option.some_inj.mp hg₀).symm
    subst hgg
    have hfound₁ :
        getGameById ((postMoveHandler games r wsOpen userId gameId pid d n now).2.1)
          gameId = some { g₀ with
            moves := g₀.moves ++ [⟨idOfNat n, bodyStr pid, d.getD .vnull, now⟩],
            updatedAt := now } := by
      rw [hgames₁]
      rw [getGameById_modifyFirstGame games gameId
        (fun h => { h with
          moves := h.moves ++ [⟨idOfNat n, bodyStr pid, d.getD .vnull, now⟩],
          updatedAt := now }) (fun _ => rfl)]
      rw [hg]
      rfl
    have hseq1 :
        (postMovesSeq games r wsOpen userId gameId ((pid, d) :: rest) n now).1 =
          (postMovesSeq
            ((postMoveHandler games r wsOpen userId gameId pid d n now).2.1)
            r wsOpen userId gameId rest
            ((postMoveHandler games r wsOpen userId gameId pid d n now).2.2.1)
            now).1 := rfl
    have hseq2 :
        (postMovesSeq games r wsOpen userId gameId ((pid, d) :: rest) n now).2.1 =
          (postMovesSeq
            ((postMoveHandler games r wsOpen userId gameId pid d n now).2.1)
            r wsOpen userId gameId rest
            ((postMoveHandler games r wsOpen userId gameId pid d n now).2.2.1)
            now).2.1 := rfl
    have hseq3 :
        (postMovesSeq games r wsOpen userId gameId ((pid, d) :: rest) n now).2.2 =
          (postMoveHandler games r wsOpen userId gameId pid d n now).1 ::
          (postMovesSeq
            ((postMoveHandler games r wsOpen userId gameId pid d n now).2.1)
            r wsOpen userId gameId rest
            ((postMoveHandler games r wsOpen userId gameId pid d n now).2.2.1)
            now).2.2 := rfl
    have htail :
        ∀ resp ∈ (postMovesSeq
            ((postMoveHandler games r wsOpen userId gameId pid d n now).2.1)
            r wsOpen userId gameId rest (n + 1) now).2.2,
          resp.status = 201 := by
      intro resp hresp
      apply hall
      rw [hseq3]
      simp only [List.mem_cons]
      right
      rw [hn₁]
      exact hresp
    obtain ⟨g', hGet, hMoves, hN⟩ := ih _ _ (n + 1) hfound₁ htail
    refine ⟨g', ?_, ?_, ?_⟩
    · rw [hseq1, hn₁]
      exact hGet
    · rw [hMoves]
      simp [expectedMoves, List.append_assoc]
    · rw [hseq2, hn₁, hN]
      simp [List.length_cons]
      omega

theorem expectedMoves_length (reqs : List (Option JsVal × Option JsVal))
    (n now : Nat) : (expectedMoves reqs n now).length = reqs.length := by
  induction reqs generalizing n with
  | nil => rfl
  | cons q rest ih =>
    obtain ⟨pid, d⟩ := q
    simp [expectedMoves, ih]

theorem expectedMoves_payloads (reqs : List (Option JsVal × Option JsVal))
    (n now : Nat) :
    (expectedMoves reqs n now).map (fun m => (m.playerId, m.data)) =
      reqs.map (fun q => (bodyStr q.1, q.2.getD .vnull)) := by
  induction reqs generalizing n with
  | nil => rfl
  | cons q rest ih =>
    obtain ⟨pid, d⟩ := q
    simp [expectedMoves, ih]

theorem expectedMoves_id_ge (reqs : List (Option JsVal × Option JsVal))
    (n now : Nat) :
    ∀ x ∈ (expectedMoves reqs n now).map Move.id, ∃ k, n ≤ k ∧ x = idOfNat k := by
  induction reqs generalizing n with
  | nil => simp [expectedMoves]
  | cons q rest ih =>
    obtain ⟨pid, d⟩ := q
    intro x hx
    simp only [expectedMoves, List.map_cons, List.mem_cons] at hx
    rcases hx with rfl | hx
    · exact ⟨n, le_refl n, rfl⟩
    · obtain ⟨k, hk, hx⟩ := ih (n + 1) x hx
      exact ⟨k, by omega, hx⟩

theorem expectedMoves_ids_nodup (reqs : List (Option JsVal × Option JsVal))
    (n now : Nat) : ((expectedMoves reqs n now).map Move.id).Nodup := by
  induction reqs generalizing n with
  | nil => simp [expectedMoves]
  | cons q rest ih =>
    obtain ⟨pid, d⟩ := q
    simp only [expectedMoves, List.map_cons, List.nodup_cons]
    refine ⟨?_, ih (n + 1)⟩
    intro hmem
    obtain ⟨k, hk, hx⟩ := expectedMoves_id_ge rest (n + 1) now _ hmem
    have := idOfNat_injective hx
    omega

theorem expectedMoves_take (reqs : List (Option JsVal × Option JsVal))
    (k n now : Nat) :
    expectedMoves (reqs.take k) n now <+: expectedMoves reqs n now := by
  induction reqs generalizing k n with
  | nil => simp [expectedMoves]
  | cons q rest ih =>
    obtain ⟨pid, d⟩ := q
    cases k with
    | zero => simp [expectedMoves]
    | succ k' =>
      simp only [List.take_succ_cons, expectedMoves]
      obtain ⟨t, ht⟩ := ih k' (n + 1)
      exact ⟨t, by rw [List.cons_append, ht]⟩

theorem postMovesSeq_resps_prefix (r : Registry) (wsOpen : Nat → Bool)
    (userId gameId : String) (now : Nat)
    (l₁ l₂ : List (Option JsVal × Option JsVal)) :
    ∀ (games : List Game) (n : Nat),
    ∃ tail, (postMovesSeq games r wsOpen userId gameId (l₁ ++ l₂) n now).2.2 =
      (postMovesSeq games r wsOpen userId gameId l₁ n now).2.2 ++ tail := by
  induction l₁ with
  | nil =>
    intro games n
    exact ⟨(postMovesSeq games r wsOpen userId gameId l₂ n now).2.2,
      by simp [postMovesSeq]⟩
  | cons q rest ih =>
    intro games n
    obtain ⟨pid, d⟩ := q
    obtain ⟨tail, htail⟩ :=
      ih ((postMoveHandler games r wsOpen userId gameId pid d n now).2.1)
        ((postMoveHandler games r wsOpen userId gameId pid d n now).2.2.1)
    refine ⟨tail, ?_⟩
    have h1 :
        (postMovesSeq games r wsOpen userId gameId (((pid, d) :: rest) ++ l₂) n
          now).2.2 =
          (postMoveHandler games r wsOpen userId gameId pid d n now).1 ::
          (postMovesSeq
            ((postMoveHandler games r wsOpen userId gameId pid d n now).2.1)
            r wsOpen userId gameId (rest ++ l₂)
            ((postMoveHandler games r wsOpen userId gameId pid d n now).2.2.1)
            now).2.2 := rfl
    have h2 :
        (postMovesSeq games r wsOpen userId gameId ((pid, d) :: rest) n now).2.2 =
          (postMoveHandler games r wsOpen userId gameId pid d n now).1 ::
          (postMovesSeq
            ((postMoveHandler games r wsOpen userId gameId pid d n now).2.1)
            r wsOpen userId gameId rest
            ((postMoveHandler games r wsOpen userId gameId pid d n now).2.2.1)
            now).2.2 := rfl
    rw [h1, h2, htail]
    rfl

/-- Claim C5: starting from a game with no moves, after a sequence of
    uniformly successful `POST /games/:gameId/moves` submissions the
    stored move list is exactly one move per submission, in submission
    order, each carrying its request's player and data and a distinct
    fresh identifier; and the list after any prefix of the sequence is a
    prefix of the final list (moves are never altered or removed). -/
theorem claim_C5 (games : List Game) (g : Game) (r : Registry)
    (wsOpen : Nat → Bool) (userId gameId : String)
    (reqs : List (Option JsVal × Option JsVal)) (n now : Nat)
    (hg : getGameById games gameId = some g) (hg0 : g.moves = [])
    (hall : ∀ resp ∈ (postMovesSeq games r wsOpen userId gameId reqs n now).2.2,
      resp.status = 201) :
    getGameMoves ((postMovesSeq games r wsOpen userId gameId reqs n now).1) gameId
      = expectedMoves reqs n now ∧
    (getGameMoves ((postMovesSeq games r wsOpen userId gameId reqs n now).1)
      gameId).length = reqs.length ∧
    (getGameMoves ((postMovesSeq games r wsOpen userId gameId reqs n now).1)
        gameId).map (fun m => (m.playerId, m.data)) =
      reqs.map (fun q => (bodyStr q.1, q.2.getD .vnull)) ∧
    ((getGameMoves ((postMovesSeq games r wsOpen userId gameId reqs n now).1)
        gameId).map Move.id).Nodup ∧
    (∀ k, getGameMoves
        ((postMovesSeq games r wsOpen userId gameId (reqs.take k) n now).1) gameId
      <+: getGameMoves ((postMovesSeq games r wsOpen userId gameId reqs n now).1)
        gameId) := by
  obtain ⟨g', hGet, hMoves, _⟩ := postMovesSeq_spec reqs games g n hg hall
  have hfull : getGameMoves ((postMovesSeq games r wsOpen userId gameId reqs n
      now).1) gameId = expectedMoves reqs n now := by
    simp [getGameMoves, hGet, hMoves, hg0]
  refine ⟨hfull, by rw [hfull]; exact expectedMoves_length reqs n now,
    by rw [hfull]; exact expectedMoves_payloads reqs n now,
    by rw [hfull]; exact expectedMoves_ids_nodup reqs n now, ?_⟩
  intro k
  obtain ⟨tail, hsplit⟩ := postMovesSeq_resps_prefix r wsOpen userId gameId now
    (reqs.take k) (reqs.drop k) games n
  rw [List.take_append_drop] at hsplit
  have htake : ∀ resp ∈ (postMovesSeq games r wsOpen userId gameId (reqs.take k)
      n now).2.2, resp.status = 201 := by
    intro resp hresp
    apply hall
    rw [hsplit]
    simp only [List.mem_append]
    exact Or.inl hresp
  obtain ⟨gk, hGetk, hMovesk, _⟩ :=
    postMovesSeq_spec (reqs.take k) games g n hg htake
  have htakeMoves : getGameMoves
      ((postMovesSeq games r wsOpen userId gameId (reqs.take k) n now).1) gameId
      = expectedMoves (reqs.take k) n now := by
    simp [getGameMoves, hGetk, hMovesk, hg0]
  rw [htakeMoves, hfull]
  exact expectedMoves_take reqs k n now

theorem claim_C5_witness :
    getGameMoves ((postMovesSeq [demoGame] [] (fun _ => true) "aa" "g1"
        [(some (.vstr "p1"), some (.vobj [])), (some (.vstr "p1"), some (.varr []))]
        4 9).1) "g1" =
      expectedMoves
        [(some (.vstr "p1"), some (.vobj [])), (some (.vstr "p1"), some (.varr []))]
        4 9 ∧
    (getGameMoves ((postMovesSeq [demoGame] [] (fun _ => true) "aa" "g1"
        [(some (.vstr "p1"), some (.vobj [])), (some (.vstr "p1"), some (.varr []))]
        4 9).1) "g1").length = 2 ∧
    ((getGameMoves ((postMovesSeq [demoGame] [] (fun _ => true) "aa" "g1"
        [(some (.vstr "p1"), some (.vobj [])), (some (.vstr "p1"), some (.varr []))]
        4 9).1) "g1").map Move.id).Nodup := by
  have h := claim_C5 [demoGame] demoGame [] (fun _ => true) "aa" "g1"
    [(some (.vstr "p1"), some (.vobj [])), (some (.vstr "p1"), some (.varr []))]
    4 9 rfl rfl (by decide)
  exact ⟨h.1, h.2.1, h.2.2.2.1⟩

/-! ### Claim C10: identifier freshness along API runs -/

/-- Every player identifier embedded in the game collection. -/
def playerIds (games : List Game) : List String :=
  games.flatMap (fun g => g.players.map Player.id)

/-- The identifiers the disjointness invariant tracks: all user ids
    followed by all player ids. -/
def allIds (s : SState) : List String :=
  s.users.map User.id ++ playerIds s.games

/-- Freshness: the tracked ids are pairwise distinct and all drawn from
    counter values below `n`. -/
def IdsFresh (n : Nat) (ids : List String) : Prop :=
  ids.Nodup ∧ ∀ x ∈ ids, ∃ k, k < n ∧ x = idOfNat k

/-- The reachability invariant of claim C10. -/
def Inv (s : SState) : Prop := IdsFresh s.nextId (allIds s)

theorem IdsFresh.of_sublist {n n' : Nat} {ids ids' : List String}
    (h : IdsFresh n ids) (hsub : ids'.Sublist ids) (hn : n ≤ n') :
    IdsFresh n' ids' := by
  refine ⟨List.Nodup.sublist hsub h.1, fun x hx => ?_⟩
  obtain ⟨k, hk, he⟩ := h.2 x (hsub.subset hx)
  exact ⟨k, by omega, he⟩

theorem IdsFresh.of_perm {n : Nat} {ids ids' : List String}
    (h : IdsFresh n ids) (hp : ids'.Perm ids) : IdsFresh n ids' := by
  refine ⟨hp.nodup_iff.mpr h.1, fun x hx => h.2 x (hp.subset hx)⟩

theorem IdsFresh.cons_fresh {n m n' : Nat} {ids : List String}
    (h : IdsFresh n ids) (hm : n ≤ m) (hn : m < n') :
    IdsFresh n' (idOfNat m :: ids) := by
  refine ⟨List.nodup_cons.mpr ⟨?_, h.1⟩, ?_⟩
  · intro hmem
    obtain ⟨k, hk, he⟩ := h.2 _ hmem
    have hkm := idOfNat_injective he
    omega
  · intro x hx
    rcases List.mem_cons.mp hx with rfl | hx
    · exact ⟨m, hn, rfl⟩
    · obtain ⟨k, hk, he⟩ := h.2 x hx
      exact ⟨k, by omega, he⟩

theorem playerIds_cons (g : Game) (rest : List Game) :
    playerIds (g :: rest) = g.players.map Player.id ++ playerIds rest := rfl

theorem playerIds_modify_preserve (games : List Game) (gid : String)
    (f : Game → Game) (hf : ∀ g, (f g).players = g.players) :
    playerIds (modifyFirstGame games gid f) = playerIds games := by
  induction games with
  | nil => rfl
  | cons g rest ih =>
    by_cases h : (g.id == gid) = true
    · simp only [modifyFirstGame, h, if_true, playerIds_cons, hf]
    · have h' : (g.id == gid) = false := Bool.eq_false_iff.mpr h
      simp only [modifyFirstGame, h', Bool.false_eq_true, if_false, playerIds_cons]
      rw [ih]

theorem playerIds_modify_snoc (games : List Game) (gid : String)
    (f : Game → Game) (p : Player)
    (hf : ∀ g, (f g).players = g.players ++ [p]) :
    (playerIds (modifyFirstGame games gid f)).Perm (p.id :: playerIds games) ∨
    playerIds (modifyFirstGame games gid f) = playerIds games := by
  induction games with
  | nil => right; rfl
  | cons g rest ih =>
    by_cases h : (g.id == gid) = true
    · left
      simp only [modifyFirstGame, h, if_true, playerIds_cons, hf,
        List.map_append, List.map_cons, List.map_nil, List.append_assoc,
        List.singleton_append]
      exact List.perm_middle
    · have h' : (g.id == gid) = false := Bool.eq_false_iff.mpr h
      simp only [modifyFirstGame, h', Bool.false_eq_true, if_false, playerIds_cons]
      rcases ih with hperm | heq
      · left
        exact (List.Perm.append_left _ hperm).trans List.perm_middle
      · right
        rw [heq]

theorem playerIds_modify_sub (games : List Game) (gid : String)
    (f : Game → Game) (hf : ∀ g, ((f g).players).Sublist g.players) :
    (playerIds (modifyFirstGame games gid f)).Sublist (playerIds games) := by
  induction games with
  | nil => simp [modifyFirstGame]
  | cons g rest ih =>
    by_cases h : (g.id == gid) = true
    · simp only [modifyFirstGame, h, if_true, playerIds_cons]
      exact List.Sublist.append ((hf g).map Player.id) (List.Sublist.refl _)
    · have h' : (g.id == gid) = false := Bool.eq_false_iff.mpr h
      simp only [modifyFirstGame, h', Bool.false_eq_true, if_false, playerIds_cons]
      exact List.Sublist.append (List.Sublist.refl _) ih

theorem playerIds_removeFirstGame (games : List Game) (gid : String) :
    (playerIds (removeFirstGame games gid)).Sublist (playerIds games) := by
  induction games with
  | nil => simp [removeFirstGame]
  | cons g rest ih =>
    by_cases h : (g.id == gid) = true
    · simp only [removeFirstGame, h, if_true, playerIds_cons]
      exact List.sublist_append_right _ _
    · have h' : (g.id == gid) = false := Bool.eq_false_iff.mpr h
      simp only [removeFirstGame, h', Bool.false_eq_true, if_false, playerIds_cons]
      exact List.Sublist.append (List.Sublist.refl _) ih

theorem playerIds_append_game (games : List Game) (g : Game) :
    playerIds (games ++ [g]) = playerIds games ++ g.players.map Player.id := by
  simp [playerIds]

theorem removeFirstPlayer_sublist (players : List Player) (pid : String) :
    (removeFirstPlayer players pid).Sublist players := by
  induction players with
  | nil => simp [removeFirstPlayer]
  | cons p rest ih =>
    by_cases h : (p.id == pid) = true
    · simp only [removeFirstPlayer, h, if_true]
      exact List.sublist_cons_self _ _
    · have h' : (p.id == pid) = false := Bool.eq_false_iff.mpr h
      simp only [removeFirstPlayer, h', Bool.false_eq_true, if_false]
      exact ih.cons₂ _

theorem postRegisterHandler_shape {users : List User} {uname : Option JsVal}
    {n now : Nat} {resp : ApiResponse} {users' : List User} {n' : Nat}
    (h : postRegisterHandler users uname n now = (resp, users', n')) :
    (users' = users ∧ n' = n) ∨
    ∃ u, users' = users ++ [u] ∧ u.id = idOfNat (n + 2) ∧ n' = n + 3 := by
  by_cases hinv : invalidTrimmedString uname = true
  · simp only [postRegisterHandler, hinv, if_true, Prod.mk.injEq] at h
    exact Or.inl ⟨h.2.1.symm, h.2.2.symm⟩
  · by_cases hdup : users.any (fun u => u.username == jsTrim (bodyStr uname)) = true
    · simp only [postRegisterHandler, hinv, Bool.false_eq_true, if_false,
        registerUser, hdup, if_true, Prod.mk.injEq] at h
      exact Or.inl ⟨h.2.1.symm, h.2.2.symm⟩
    · simp only [postRegisterHandler, hinv, Bool.false_eq_true, if_false,
        registerUser, hdup, Prod.mk.injEq] at h
      exact Or.inr ⟨_, h.2.1.symm, rfl, h.2.2.symm⟩

theorem postGamesHandler_shape {games : List Game} {uid : String}
    {name : Option JsVal} {n now : Nat} {resp : ApiResponse}
    {games' : List Game} {n' : Nat}
    (h : postGamesHandler games uid name n now = (resp, games', n')) :
    (games' = games ∧ n' = n) ∨
    ∃ g, games' = games ++ [g] ∧ g.players = [] ∧ n' = n + 1 := by
  by_cases hinv : invalidTrimmedString name = true
  · simp only [postGamesHandler, hinv, if_true, Prod.mk.injEq] at h
    exact Or.inl ⟨h.2.1.symm, h.2.2.symm⟩
  · simp only [postGamesHandler, hinv, Bool.false_eq_true, if_false, createGame,
      Prod.mk.injEq] at h
    exact Or.inr ⟨_, h.2.1.symm, rfl, h.2.2.symm⟩

theorem putGameHandler_shape {games : List Game} {uid gid : String}
    {name statusField : Option JsVal} {now : Nat} {resp : ApiResponse}
    {games' : List Game}
    (h : putGameHandler games uid gid name statusField now = (resp, games')) :
    playerIds games' = playerIds games := by
  rcases hg : getGameById games gid with _ | g
  · simp only [putGameHandler, hg, Prod.mk.injEq] at h
    rw [← h.2]
  · by_cases hown : g.ownerId = uid
    · simp only [putGameHandler, hg, hown, ne_eq, not_true_eq_false, if_false,
        updateGame, Prod.mk.injEq] at h
      rw [← h.2]
      exact playerIds_modify_preserve games gid _ (fun _ => rfl)
    · simp only [putGameHandler, hg, ne_eq, hown, not_false_eq_true, if_true,
        Prod.mk.injEq] at h
      rw [← h.2]

theorem deleteGameHandler_shape {games : List Game} {uid gid : String}
    {resp : ApiResponse} {games' : List Game}
    (h : deleteGameHandler games uid gid = (resp, games')) :
    (playerIds games').Sublist (playerIds games) := by
  rcases hg : getGameById games gid with _ | g
  · simp only [deleteGameHandler, hg, Prod.mk.injEq] at h
    rw [← h.2]
  · by_cases hown : g.ownerId = uid
    · by_cases hany : games.any (fun g => g.id == gid) = true
      · simp only [deleteGameHandler, hg, hown, ne_eq, not_true_eq_false,
          if_false, deleteGame, hany, if_true, Prod.mk.injEq] at h
        rw [← h.2]
        exact playerIds_removeFirstGame games gid
      · simp only [deleteGameHandler, hg, hown, ne_eq, not_true_eq_false,
          if_false, deleteGame, hany, Bool.false_eq_true, Prod.mk.injEq] at h
        rw [← h.2]
    · simp only [deleteGameHandler, hg, ne_eq, hown, not_false_eq_true, if_true,
        Prod.mk.injEq] at h
      rw [← h.2]

theorem postPlayerHandler_shape {games : List Game} {r : Registry}
    {wsOpen : Nat → Bool} {uid gid : String} {name : Option JsVal} {n now : Nat}
    {resp : ApiResponse} {games' : List Game} {n' : Nat} {sends : List Send}
    (h : postPlayerHandler games r wsOpen uid gid name n now =
      (resp, games', n', sends)) :
    (playerIds games' = playerIds games ∧ (n' = n ∨ n' = n + 1)) ∨
    ((playerIds games').Perm (idOfNat n :: playerIds games) ∧ n' = n + 1) := by
  rcases hg : getGameById games gid with _ | g
  · simp only [postPlayerHandler, hg, Prod.mk.injEq] at h
    exact Or.inl ⟨by rw [← h.2.1], Or.inl h.2.2.1.symm⟩
  · by_cases hown : g.ownerId = uid
    · by_cases hinv : invalidTrimmedString name = true
      · simp only [postPlayerHandler, hg, hown, ne_eq, not_true_eq_false,
          if_false, hinv, if_true, Prod.mk.injEq] at h
        exact Or.inl ⟨by rw [← h.2.1], Or.inl h.2.2.1.symm⟩
      · simp only [postPlayerHandler, hg, hown, ne_eq, not_true_eq_false,
          if_false, hinv, Bool.false_eq_true, addPlayerToGame_of_found hg,
          Prod.mk.injEq] at h
        rcases playerIds_modify_snoc games gid
          (fun g => { g with
            players := g.players ++ [⟨idOfNat n, jsTrim (bodyStr name), now⟩],
            updatedAt := now })
          ⟨idOfNat n, jsTrim (bodyStr name), now⟩ (fun _ => rfl) with hp | hp
        · exact Or.inr ⟨by rw [← h.2.1]; exact hp, h.2.2.1.symm⟩
        · exact Or.inl ⟨by rw [← h.2.1]; exact hp, Or.inr h.2.2.1.symm⟩
    · simp only [postPlayerHandler, hg, ne_eq, hown, not_false_eq_true, if_true,
        Prod.mk.injEq] at h
      exact Or.inl ⟨by rw [← h.2.1], Or.inl h.2.2.1.symm⟩

theorem deletePlayerHandler_shape {games : List Game} {r : Registry}
    {wsOpen : Nat → Bool} {uid gid pid : String} {now : Nat}
    {resp : ApiResponse} {games' : List Game} {sends : List Send}
    (h : deletePlayerHandler games r wsOpen uid gid pid now =
      (resp, games', sends)) :
    (playerIds games').Sublist (playerIds games) := by
  rcases hg : getGameById games gid with _ | g
  · simp only [deletePlayerHandler, hg, Prod.mk.injEq] at h
    rw [← h.2.1]
  · by_cases hown : g.ownerId = uid
    · by_cases hmem : g.players.any (fun p => p.id == pid) = true
      · simp only [deletePlayerHandler, hg, hown, ne_eq, not_true_eq_false,
          if_false, removePlayerFromGame, hmem, if_true, Prod.mk.injEq] at h
        rw [← h.2.1]
        exact playerIds_modify_sub games gid _
          (fun g => removeFirstPlayer_sublist g.players pid)
      · simp only [deletePlayerHandler, hg, hown, ne_eq, not_true_eq_false,
          if_false, removePlayerFromGame, hmem, Bool.false_eq_true,
          Prod.mk.injEq] at h
        rw [← h.2.1]
    · simp only [deletePlayerHandler, hg, ne_eq, hown, not_false_eq_true,
        if_true, Prod.mk.injEq] at h
      rw [← h.2.1]

theorem postMoveHandler_shape {games : List Game} {r : Registry}
    {wsOpen : Nat → Bool} {uid gid : String} {playerId data : Option JsVal}
    {n now : Nat} {resp : ApiResponse} {games' : List Game} {n' : Nat}
    {sends : List Send}
    (h : postMoveHandler games r wsOpen uid gid playerId data n now =
      (resp, games', n', sends)) :
    playerIds games' = playerIds games ∧ (n' = n ∨ n' = n + 1) := by
  rcases hg : getGameById games gid with _ | g
  · simp only [postMoveHandler, hg, Prod.mk.injEq] at h
    exact ⟨by rw [← h.2.1], Or.inl h.2.2.1.symm⟩
  · by_cases hauth : movesOwnerOrPlayer g uid = true
    · by_cases hpid : invalidPlayerIdField playerId = true
      · simp only [postMoveHandler, hg, hauth, Bool.not_true, Bool.false_eq_true,
          if_false, hpid, if_true, Prod.mk.injEq] at h
        exact ⟨by rw [← h.2.1], Or.inl h.2.2.1.symm⟩
      · by_cases hd : invalidMoveData data = true
        · simp only [postMoveHandler, hg, hauth, Bool.not_true,
            Bool.false_eq_true, if_false, hpid, hd, if_true, Prod.mk.injEq] at h
          exact ⟨by rw [← h.2.1], Or.inl h.2.2.1.symm⟩
        · rcases hfind : g.players.find? (fun p => p.id == bodyStr playerId)
            with _ | p
          · simp only [postMoveHandler, hg, hauth, Bool.not_true,
              Bool.false_eq_true, if_false, hpid, hd, hfind,
              Prod.mk.injEq] at h
            exact ⟨by rw [← h.2.1], Or.inl h.2.2.1.symm⟩
          · simp only [postMoveHandler, hg, hauth, Bool.not_true,
              Bool.false_eq_true, if_false, hpid, hd, hfind,
              addMoveToGame_of_found hg, Prod.mk.injEq] at h
            refine ⟨?_, Or.inr h.2.2.1.symm⟩
            rw [← h.2.1]
            exact playerIds_modify_preserve games gid _ (fun _ => rfl)
    · simp only [postMoveHandler, hg, hauth, Bool.not_eq_true', if_true,
        Prod.mk.injEq] at h
      exact ⟨by rw [← h.2.1], Or.inl h.2.2.1.symm⟩

theorem step_Inv (s : SState) (op : Op) (h : Inv s) : Inv (step s op) := by
  obtain ⟨hnd, hbound⟩ := h
  cases op with
  | opRegister uname now =>
    rcases hout : postRegisterHandler s.users uname s.nextId now
      with ⟨resp, users', n'⟩
    rcases postRegisterHandler_shape hout with ⟨h1, h2⟩ | ⟨u, h1, h2, h3⟩
    · subst h1; subst h2
      simp only [step, hout]
      exact ⟨hnd, hbound⟩
    · subst h1; subst h3
      simp only [step, hout, Inv, allIds]
      have hfresh : IdsFresh (s.nextId + 3) (idOfNat (s.nextId + 2) :: allIds s) :=
        IdsFresh.cons_fresh ⟨hnd, hbound⟩ (by omega) (by omega)
      refine IdsFresh.of_perm hfresh ?_
      rw [List.map_append, List.map_singleton, h2, List.append_assoc,
        List.singleton_append]
      exact List.perm_middle
  | opCreateGame key name now =>
    rcases hu : apiKeyAuth s.users key with _ | u
    · simp only [step, hu]
      exact ⟨hnd, hbound⟩
    · rcases hout : postGamesHandler s.games u.id name s.nextId now
        with ⟨resp, games', n'⟩
      rcases postGamesHandler_shape hout with ⟨h1, h2⟩ | ⟨g, h1, h2, h3⟩
      · subst h1; subst h2
        simp only [step, hu, hout]
        exact ⟨hnd, hbound⟩
      · subst h1; subst h3
        simp only [step, hu, hout, Inv, allIds]
        rw [playerIds_append_game, h2]
        simp only [List.map_nil, List.append_nil]
        exact IdsFresh.of_sublist ⟨hnd, hbound⟩ (List.Sublist.refl _) (by omega)
  | opUpdateGame key gid name statusField now =>
    rcases hu : apiKeyAuth s.users key with _ | u
    · simp only [step, hu]
      exact ⟨hnd, hbound⟩
    · rcases hout : putGameHandler s.games u.id gid name statusField now
        with ⟨resp, games'⟩
      have hp := putGameHandler_shape hout
      simp only [step, hu, hout, Inv, allIds]
      rw [hp]
      exact ⟨hnd, hbound⟩
  | opDeleteGame key gid =>
    rcases hu : apiKeyAuth s.users key with _ | u
    · simp only [step, hu]
      exact ⟨hnd, hbound⟩
    · rcases hout : deleteGameHandler s.games u.id gid with ⟨resp, games'⟩
      have hp := deleteGameHandler_shape hout
      simp only [step, hu, hout, Inv, allIds]
      exact IdsFresh.of_sublist ⟨hnd, hbound⟩
        (List.Sublist.append (List.Sublist.refl _) hp) (le_refl _)
  | opAddPlayer key gid name now =>
    rcases hu : apiKeyAuth s.users key with _ | u
    · simp only [step, hu]
      exact ⟨hnd, hbound⟩
    · rcases hout : postPlayerHandler s.games s.registry (fun _ => true) u.id gid
        name s.nextId now with ⟨resp, games', n', sends⟩
      rcases postPlayerHandler_shape hout with ⟨h1, h2⟩ | ⟨hperm, h2⟩
      · simp only [step, hu, hout, Inv, allIds]
        rw [h1]
        rcases h2 with rfl | rfl
        · exact ⟨hnd, hbound⟩
        · exact IdsFresh.of_sublist ⟨hnd, hbound⟩ (List.Sublist.refl _) (by omega)
      · subst h2
        simp only [step, hu, hout, Inv, allIds]
        have hfresh : IdsFresh (s.nextId + 1) (idOfNat s.nextId :: allIds s) :=
          IdsFresh.cons_fresh ⟨hnd, hbound⟩ (le_refl _) (by omega)
        refine IdsFresh.of_perm hfresh ?_
        exact (List.Perm.append_left _ hperm).trans List.perm_middle
  | opRemovePlayer key gid pid now =>
    rcases hu : apiKeyAuth s.users key with _ | u
    · simp only [step, hu]
      exact ⟨hnd, hbound⟩
    · rcases hout : deletePlayerHandler s.games s.registry (fun _ => true) u.id
        gid pid now with ⟨resp, games', sends⟩
      have hp := deletePlayerHandler_shape hout
      simp only [step, hu, hout, Inv, allIds]
      exact IdsFresh.of_sublist ⟨hnd, hbound⟩
        (List.Sublist.append (List.Sublist.refl _) hp) (le_refl _)
  | opPostMove key gid playerId data now =>
    rcases hu : apiKeyAuth s.users key with _ | u
    · simp only [step, hu]
      exact ⟨hnd, hbound⟩
    · rcases hout : postMoveHandler s.games s.registry (fun _ => true) u.id gid
        playerId data s.nextId now with ⟨resp, games', n', sends⟩
      obtain ⟨h1, h2⟩ := postMoveHandler_shape hout
      simp only [step, hu, hout, Inv, allIds]
      rw [h1]
      rcases h2 with rfl | rfl
      · exact ⟨hnd, hbound⟩
      · exact IdsFresh.of_sublist ⟨hnd, hbound⟩ (List.Sublist.refl _) (by omega)
  | opWsConnect wsId apiKey gameId =>
    rcases hout : wsConnectHandler s.users s.games s.registry wsId apiKey gameId
      with ⟨res, r', sends⟩
    simp only [step, hout]
    exact ⟨hnd, hbound⟩
  | opWsClose gid wsId uname =>
    rcases hout : wsCloseHandler s.registry (fun _ => true) gid wsId uname
      with ⟨r', sends⟩
    simp only [step, hout]
    exact ⟨hnd, hbound⟩

theorem foldl_step_Inv (ops : List Op) : ∀ s, Inv s → Inv (ops.foldl step s) := by
  induction ops with
  | nil => intro s h; exact h
  | cons op rest ih => intro s h; exact ih _ (step_Inv s op h)

theorem runOps_Inv (ops : List Op) : Inv (runOps ops) := by
  refine foldl_step_Inv ops initState ⟨?_, ?_⟩ <;>
    simp [allIds, initState, playerIds]

/-- Claim C10: in every state reachable through the public API from the
    empty stores (with uuid generation modelled as a fresh counter
    producing pairwise-distinct identifiers), every player identifier in
    every game's roster differs from every user identifier; consequently
    no user other than a game's owner ever satisfies the owner-or-player
    checks used by the move routes and the realtime handshake. -/
theorem claim_C10 (ops : List Op) :
    (∀ g ∈ (runOps ops).games, ∀ p ∈ g.players, ∀ u ∈ (runOps ops).users,
      p.id ≠ u.id) ∧
    (∀ g ∈ (runOps ops).games, ∀ u ∈ (runOps ops).users, u.id ≠ g.ownerId →
      movesOwnerOrPlayer g u.id = false ∧ wsOwnerOrPlayer g u.id = false) := by
  obtain ⟨hnd, _⟩ := runOps_Inv ops
  have hdisj := (List.nodup_append.mp hnd).2.2
  have key : ∀ g ∈ (runOps ops).games, ∀ p ∈ g.players,
      ∀ u ∈ (runOps ops).users, p.id ≠ u.id := by
    intro g hg p hp u hu heq
    have hpmem : p.id ∈ playerIds (runOps ops).games := by
      simp only [playerIds, List.mem_flatMap]
      exact ⟨g, hg, List.mem_map_of_mem _ hp⟩
    have humem : u.id ∈ (runOps ops).users.map User.id :=
      List.mem_map_of_mem _ hu
    exact hdisj humem (heq ▸ hpmem)
  refine ⟨key, ?_⟩
  intro g hg u hu hne
  have hnotany : g.players.any (fun p => p.id == u.id) = false := by
    rw [List.any_eq_false]
    intro p hp
    simp only [beq_iff_eq]
    exact key g hg p hp u hu
  have howner : (g.ownerId == u.id) = false := by
    have : g.ownerId ≠ u.id := fun he => hne he.symm
    simp [this]
  constructor <;>
    simp [movesOwnerOrPlayer, wsOwnerOrPlayer, hnotany, howner]

/-- A concrete run: register alice, let her create a game, add a player
    to it, then register zoe. -/
def demoOps : List Op :=
  [.opRegister (some (.vstr "alice")) 0,
   .opCreateGame "a" (some (.vstr "G")) 1,
   .opAddPlayer "a" "aaa" (some (.vstr "bob")) 2,
   .opRegister (some (.vstr "zoe")) 3]

theorem claim_C10_witness :
    ("aaaa" : String) ≠ "aa" ∧
    movesOwnerOrPlayer
      ⟨"aaa", .vstr "G", "aa", [⟨"aaaa", "bob", 2⟩], [], .vstr "active", 1, 2⟩
      "aaaaaaa" = false := by
  have hg : (⟨"aaa", .vstr "G", "aa", [⟨"aaaa", "bob", 2⟩], [], .vstr "active",
      1, 2⟩ : Game) ∈ (runOps demoOps).games := List.Mem.head _
  constructor
  · exact (claim_C10 demoOps).1
      ⟨"aaa", .vstr "G", "aa", [⟨"aaaa", "bob", 2⟩], [], .vstr "active", 1, 2⟩
      hg ⟨"aaaa", "bob", 2⟩ (by decide) ⟨"aa", "alice", "a", 0⟩ (by decide)
  · exact ((claim_C10 demoOps).2
      ⟨"aaa", .vstr "G", "aa", [⟨"aaaa", "bob", 2⟩], [], .vstr "active", 1, 2⟩
      hg ⟨"aaaaaaa", "zoe", "aaaaaaaaaaa", 3⟩ (by decide) (by decide)).1

end GameApi
